import Mathlib

/-!
Verification development for the Voxsmith 2.2 narration pipeline
(`voxsmith_2_2.pyw`).  The definitions below are a shallow embedding of the
per-slide narration worker `generate_narration` and its helpers
(`select_slides`, `extract_slide_text`, the TTS retry loop, the manifest
recorder, the batch animation-snapshot phase and the attach sequence).

Modelling conventions:
* Machine-level side effects (HTTP, COM host calls, the filesystem) are
  replaced by explicit inputs (`SlideIn`, `RunInput`) and an event trace.
* SHA-256 digests are modelled by the digested data itself (an injective
  fingerprint); only the rewrite-after-append protocol is in scope.
* The external `voxanimate` module is not part of the sources; its three
  operations are modelled from the specification (see the doc comments
  marked "Modelled from the spec").
* Host-automation failures while inserting the audio shape are injected by
  the flag `insertRaises`; failures of `Slides(idx)`/`Save()` themselves and
  partial failures of the clear loop (which the code swallows) are not
  modelled separately.
-/

namespace Voxsmith

/-! HTTP and the synthesis retry loop (voxsmith_2_2.pyw lines 262-265 and
1098-1123). -/

structure HttpResp where
  status : Nat
  content : List Nat
  deriving DecidableEq, Repr

inductive NetOutcome
  | resp (r : HttpResp)
  | netErr
  deriving DecidableEq, Repr

/-- NET_MAX_ATTEMPTS = 3 (1 initial + 2 retries), line 263. -/
def NET_MAX_ATTEMPTS : Nat := 3

/-- NET_BACKOFF_BASE = 0.75 seconds, line 264. -/
def NET_BACKOFF_BASE : ℚ := 3 / 4

/-- Sleep executed after a failed attempt number `attempt`:
NET_BACKOFF_BASE * 2 ** (attempts - 1), lines 1110 and 1116. -/
def backoff (attempt : Nat) : ℚ := NET_BACKOFF_BASE * 2 ^ (attempt - 1)

inductive TtsResult
  | gotResp (r : HttpResp) (attempts : Nat) (sleeps : List ℚ)
  | netFail (attempts : Nat) (sleeps : List ℚ)
  deriving DecidableEq, Repr

def TtsResult.attempts : TtsResult → Nat
  | .gotResp _ a _ => a
  | .netFail a _ => a

def TtsResult.sleeps : TtsResult → List ℚ
  | .gotResp _ _ s => s
  | .netFail _ s => s

/-- Outcome of the k-th POST attempt (1-based), drawn from the injected
list; a missing entry counts as a transport error. -/
def attemptOutcome (l : List NetOutcome) (k : Nat) : NetOutcome :=
  l.getD (k - 1) .netErr

/-- One unrolling of the `while attempts < NET_MAX_ATTEMPTS` loop of lines
1103-1118.  `fuel` is the number of loop iterations still allowed
(NET_MAX_ATTEMPTS - attempts), `attempts` the attempts already made and
`sleeps` the backoff sleeps performed so far. -/
def ttsGo (l : List NetOutcome) : Nat → Nat → List ℚ → TtsResult
  | 0, attempts, sleeps => .netFail attempts sleeps
  | fuel + 1, attempts, sleeps =>
    let a := attempts + 1
    match attemptOutcome l a with
    | .resp r =>
      if r.status = 200 then .gotResp r a sleeps
      else if 500 ≤ r.status ∧ r.status < 600 ∧ a < NET_MAX_ATTEMPTS then
        ttsGo l fuel a (sleeps ++ [backoff a])
      else .gotResp r a sleeps
    | .netErr =>
      if a < NET_MAX_ATTEMPTS then ttsGo l fuel a (sleeps ++ [backoff a])
      else .netFail a sleeps

/-- The whole per-slide TTS POST loop (lines 1098-1118). -/
def ttsPost (l : List NetOutcome) : TtsResult := ttsGo l NET_MAX_ATTEMPTS 0 []

/-- Condition under which the loop retries an attempt: a 5xx response
(line 1109) or a requests exception (line 1113). -/
def retryable : NetOutcome → Bool
  | .resp r => decide (500 ≤ r.status) && decide (r.status < 600)
  | .netErr => true

/-! String helpers.  Python's `str.strip`, `str.split` and `str.join` are
modelled by structural functions over the character list of the string
(Python strips a slightly larger set of unicode whitespace than
`Char.isWhitespace`; that corner is not modelled). -/

/-- Characters with both ends trimmed of whitespace. -/
def trimChars (cs : List Char) : List Char :=
  ((cs.dropWhile Char.isWhitespace).reverse.dropWhile Char.isWhitespace).reverse

/-- Model of Python `str.strip()`. -/
def pyStrip (s : String) : String := String.mk (trimChars s.data)

/-- Model of Python `str.split(',')`. -/
def splitOnComma (cs : List Char) : List (List Char) :=
  cs.foldr (fun ch acc =>
    if ch = ',' then [] :: acc
    else match acc with
      | h :: t => (ch :: h) :: t
      | [] => [[ch]]) [[]]

/-- Model of Python `sep.join(parts)`. -/
def joinSep (sep : String) : List String → String
  | [] => ""
  | [x] => x
  | x :: y :: xs => x ++ sep ++ joinSep sep (y :: xs)

/-! Slide-range selection (`select_slides`, lines 640-665). -/

/-- Digit-run parser used by the model of Python `int`. -/
def parseDigits (cs : List Char) : Option Nat :=
  if cs.isEmpty then none
  else if cs.all Char.isDigit then
    some (cs.foldl (fun n c => n * 10 + (c.toNat - 48)) 0)
  else none

/-- Model of Python `int(str)`: surrounding whitespace stripped, optional
sign, decimal digits.  (CPython additionally accepts underscore digit
separators inside the digit run; that corner is not modelled.) -/
def pyParseInt (s : String) : Option Int :=
  match trimChars s.data with
  | '+' :: rest => (parseDigits rest).map Int.ofNat
  | '-' :: rest => (parseDigits rest).map (fun n => -(n : Int))
  | cs => (parseDigits cs).map Int.ofNat

/-- Model of `part.split('-', 1)`: the text before the first dash and the
text after it. -/
def splitDash (s : String) : String × String :=
  let cs := s.data
  (String.mk (cs.takeWhile (· ≠ '-')), String.mk ((cs.dropWhile (· ≠ '-')).drop 1))

/-- The clipped range start of a dash token: `max(1, st)`, a failing or
empty start endpoint defaulting to 1 (lines 648-650, 655). -/
def rangeStart (part : String) : Int :=
  max 1 ((pyParseInt (splitDash part).1).getD 1)

/-- The clipped range end of a dash token: `min(total, en)`, a failing or
empty end endpoint defaulting to `total` (lines 651-655). -/
def rangeEnd (total : Nat) (part : String) : Int :=
  min (total : Int) ((pyParseInt (splitDash part).2).getD (total : Int))

/-- Contribution of one comma-separated token to the selection set
(lines 645-664).  A dash token contributes its clipped defaulted range; a
plain token is kept only when it parses to an in-range index. -/
def tokenIdxs (total : Nat) (part : String) : List Nat :=
  if part.data.contains '-' then
    if rangeStart part ≤ rangeEnd total part then
      List.range' (rangeStart part).toNat
        ((rangeEnd total part).toNat + 1 - (rangeStart part).toNat)
    else []
  else
    match pyParseInt part with
    | some n => if 1 ≤ n ∧ n ≤ (total : Int) then [n.toNat] else []
    | none => []

/-- Ascending duplicate-free list of the values of `l`: the model of
Python `sorted(set(l))`. -/
def sortedDedup (l : List Nat) : List Nat :=
  (List.insertionSort (· ≤ ·) l).dedup

/-- `select_slides(total, spec)` (lines 640-665): empty expression selects
every slide, otherwise the union of the token contributions, returned as an
ascending duplicate-free list. -/
def select_slides (total : Nat) (spec : String) : List Nat :=
  if trimChars spec.data = [] then (List.range total).map (· + 1)
  else
    sortedDedup
      (((((splitOnComma spec.data).map (fun cs => String.mk (trimChars cs))).filter
          (fun p => decide (p ≠ ""))).map (tokenIdxs total)).flatten)

/-! Slide text extraction (`extract_slide_text`, lines 845-906). -/

structure PShape where
  shapeId : Nat
  isPlaceholder : Bool
  isTitlePlaceholder : Bool
  isGroup : Bool
  isTable : Bool
  hasTextFrame : Bool
  rawText : String
  top : Int
  left : Int
  deriving DecidableEq, Repr

/-- First placeholder of type TITLE (lines 862-871). -/
def findTitleShapeId (shapes : List PShape) : Option Nat :=
  (shapes.find? (fun s => s.isPlaceholder && s.isTitlePlaceholder)).map (·.shapeId)

/-- The (top, left, stripped-text) triples collected by the shape walk
(lines 874-898): the title shape, group shapes, tables, shapes without a
text frame and shapes with empty stripped text are all skipped. -/
def eligibleItems (shapes : List PShape) : List (Int × Int × String) :=
  let tid := findTitleShapeId shapes
  (shapes.filter (fun s =>
      !(tid == some s.shapeId) && !s.isGroup && !s.isTable
        && s.hasTextFrame && decide (pyStrip s.rawText ≠ ""))).map
    (fun s => (s.top, s.left, pyStrip s.rawText))

/-- Sort key of line 901: `(top, left)` lexicographically. -/
def PosLeP (a b : Int × Int × String) : Prop :=
  a.1 < b.1 ∨ (a.1 = b.1 ∧ a.2.1 ≤ b.2.1)

instance : DecidableRel PosLeP := fun a b => by
  unfold PosLeP; exact inferInstance

instance : IsTotal (Int × Int × String) PosLeP :=
  ⟨by intro a b; unfold PosLeP; omega⟩

instance : IsTrans (Int × Int × String) PosLeP :=
  ⟨by intro a b c; unfold PosLeP; omega⟩

/-- `extract_slide_text(slide)` (lines 845-906): eligible texts sorted
stably by (top, left) and joined with newlines. -/
def extract_slide_text (shapes : List PShape) : String :=
  joinSep "\n" ((List.insertionSort PosLeP (eligibleItems shapes)).map (·.2.2))

/-! Notes resolution around the read-slide marker (lines 1062-1090).
A notes string is represented by its parse into literal runs and
occurrences of the case-insensitive marker `###\s*read\s*slide`, each
occurrence carrying the text it matched; the represented string is the
one the code holds after the initial strip of line 1064. -/

inductive NoteTok
  | marker (m : String)
  | lit (s : String)
  deriving DecidableEq, Repr

def NoteTok.isMarker : NoteTok → Bool
  | .marker _ => true
  | .lit _ => false

/-- `read_slide_pattern.search(note)` (line 1069). -/
def markerPresent (toks : List NoteTok) : Bool :=
  toks.any NoteTok.isMarker

/-- Concatenation of a list of strings. -/
def strConcat : List String → String
  | [] => ""
  | s :: rest => s ++ strConcat rest

/-- The substitution the specification describes: every marker occurrence
replaced by `repl` verbatim.  `read_slide_pattern.sub(repl, note)` instead
treats `repl` as a replacement template; the two coincide exactly when the
template parses to literal characters only. -/
def renderWith (toks : List NoteTok) (repl : String) : String :=
  strConcat (toks.map fun t => match t with
    | .marker _ => repl
    | .lit s => s)

/-- Token of a parsed `re.sub` replacement template: a literal character,
or a reference to group 0 (the whole match).  The compiled pattern has no
capture groups, so group 0 is the only group a template can reference
without raising. -/
inductive TmplTok
  | ch (c : Char)
  | group0
  deriving DecidableEq, Repr

def octDigit (c : Char) : Bool :=
  '0' ≤ c && c ≤ '7'

def octVal (c : Char) : Nat :=
  c.toNat - '0'.toNat

def asciiLetter (c : Char) : Bool :=
  ('a' ≤ c && c ≤ 'z') || ('A' ≤ c && c ≤ 'Z')

/-- The standard letter escapes of replacement templates
(`sre_parse.ESCAPES`) and the escaped backslash. -/
def escChar? (c : Char) : Option Char :=
  if c = 'a' then some '\x07'
  else if c = 'b' then some '\x08'
  else if c = 'f' then some '\x0c'
  else if c = 'n' then some '\n'
  else if c = 'r' then some '\r'
  else if c = 't' then some '\t'
  else if c = 'v' then some '\x0b'
  else if c = '\\' then some '\\'
  else none

/-- Model of `sre_parse.parse_template` for a pattern with no capture
groups, driven by fuel (at least one character is consumed per unit).
A group-0 name (`0`, `00`, …) in angle brackets references the whole
match; any other `\g` form, any numeric group reference (the pattern has
no groups), a backslash before an unknown ASCII letter, and a trailing
backslash all raise `re.error` (`none`); a backslash before `0` starts an
octal escape of up to two more octal digits, three octal digits after a
nonzero leading digit are an octal escape, and a backslash before any
other character is kept literally. -/
def parseTmpl : Nat → List Char → Option (List TmplTok)
  | _, [] => some []
  | 0, _ :: _ => none
  | fuel + 1, c0 :: rest =>
    if c0 = '\\' then
      match rest with
      | [] => none
      | c :: rest2 =>
        if c = 'g' then
          match rest2 with
          | '<' :: rest3 =>
            match rest3.dropWhile (fun d => d ≠ '>') with
            | [] => none
            | _ :: rest4 =>
              if !(rest3.takeWhile (fun d => d ≠ '>')).isEmpty &&
                  (rest3.takeWhile (fun d => d ≠ '>')).all (fun d => d == '0') then
                (parseTmpl fuel rest4).map (fun l => TmplTok.group0 :: l)
              else none
          | _ => none
        else if c = '0' then
          match rest2 with
          | d1 :: rest3 =>
            if octDigit d1 then
              match rest3 with
              | d2 :: rest4 =>
                if octDigit d2 then
                  (parseTmpl fuel rest4).map
                    (fun l => TmplTok.ch (Char.ofNat ((octVal d1 * 8 + octVal d2) % 256)) :: l)
                else (parseTmpl fuel rest3).map
                  (fun l => TmplTok.ch (Char.ofNat (octVal d1)) :: l)
              | [] => (parseTmpl fuel rest3).map
                  (fun l => TmplTok.ch (Char.ofNat (octVal d1)) :: l)
            else (parseTmpl fuel rest2).map (fun l => TmplTok.ch '\x00' :: l)
          | [] => (parseTmpl fuel rest2).map (fun l => TmplTok.ch '\x00' :: l)
        else if c.isDigit then
          match rest2 with
          | d2 :: rest3 =>
            if d2.isDigit then
              match rest3 with
              | d3 :: rest4 =>
                if octDigit c && octDigit d2 && octDigit d3 then
                  (parseTmpl fuel rest4).map
                    (fun l =>
                      TmplTok.ch (Char.ofNat ((octVal c * 64 + octVal d2 * 8 + octVal d3) % 256)) :: l)
                else none
              | [] => none
            else none
          | [] => none
        else
          match escChar? c with
          | some e => (parseTmpl fuel rest2).map (fun l => TmplTok.ch e :: l)
          | none =>
            if asciiLetter c then none
            else (parseTmpl fuel rest2).map (fun l => TmplTok.ch '\\' :: TmplTok.ch c :: l)
    else
      (parseTmpl fuel rest).map (fun l => TmplTok.ch c0 :: l)

/-- The template parse of the whole replacement string (`none` when
`re.error` is raised). -/
def parse_template (repl : String) : Option (List TmplTok) :=
  parseTmpl (repl.data.length + 1) repl.data

/-- Expansion of a parsed template at the text `m` the pattern matched. -/
def expandTmpl (tm : List TmplTok) (m : String) : String :=
  strConcat (tm.map fun t => match t with
    | .ch c => String.mk [c]
    | .group0 => m)

/-- `read_slide_pattern.sub(repl, note)` once `repl` parsed to the
template `tm`: every marker occurrence is replaced by the template
expanded at that occurrence's own matched text. -/
def renderSub (toks : List NoteTok) (tm : List TmplTok) : String :=
  strConcat (toks.map fun t => match t with
    | .marker m => expandTmpl tm m
    | .lit s => s)

/-- Lines 1066-1085: when the marker is present and the slide yields
text, `note = read_slide_pattern.sub(slide_text, note)` — the extracted
text is parsed as a replacement template, and a template error
(`re.error`) is caught by the handler of line 1082, which removes the
marker and strips instead.  An empty extraction also removes the marker
and strips (line 1081).  Without a marker the note is unchanged. -/
def resolveNote (toks : List NoteTok) (shapes : List PShape) : String :=
  if markerPresent toks then
    if extract_slide_text shapes ≠ "" then
      match parse_template (extract_slide_text shapes) with
      | some tm => renderSub toks tm
      | none => pyStrip (renderWith toks "")
    else pyStrip (renderWith toks "")
  else renderWith toks ""

/-- Claim C7's replacement sentence as stated: whenever the marker is
present and the slide has extractable text, the resolver's output is the
note with every marker occurrence replaced by exactly the extraction. -/
def claimC7 : Prop :=
  ∀ (toks : List NoteTok) (shapes : List PShape),
    markerPresent toks = true → extract_slide_text shapes ≠ "" →
    resolveNote toks shapes = renderWith toks (extract_slide_text shapes)

/-! Animation model.  The `voxanimate` module is external to the sources;
its operations are modelled from the specification, sections 4.4 and 3. -/

inductive AnimCategory
  | entrance
  | exitEffect
  | emphasis
  | motionPath
  | mediaPlay
  deriving DecidableEq, Repr

inductive TriggerType
  | onClick
  | withPrevious
  | afterPrevious
  deriving DecidableEq, Repr

structure AnimEffect where
  targetShape : Nat
  category : AnimCategory
  trigger : TriggerType
  isTextAnim : Bool
  deriving DecidableEq, Repr

structure AnimationSnapshot where
  effects : List AnimEffect
  deriving DecidableEq, Repr

structure SlideModel where
  timeline : List AnimEffect
  deriving DecidableEq, Repr

/-- Modelled from the spec: `voxanimate.snapshot_slide_animations` walks
the slide's animation timeline and records each effect (spec section 4.4);
the module itself is not under the sources. -/
def snapshot_slide_animations (s : SlideModel) : AnimationSnapshot :=
  ⟨s.timeline⟩

/-- The one new "play audio after previous, hidden icon" effect bound to
the inserted audio shape (spec section 4.4). -/
def playAudioEffect (shapeId : Nat) : AnimEffect :=
  { targetShape := shapeId, category := .mediaPlay,
    trigger := .afterPrevious, isTextAnim := false }

/-- Modelled from the spec: `voxanimate.should_skip_audio_attachment`
returns true exactly when the snapshot contains an animation category that
cannot be safely replayed (text-content animations, spec section 4.4). -/
def should_skip_audio_attachment (snap : AnimationSnapshot) : Bool × String :=
  if snap.effects.any (·.isTextAnim) then (true, "text animation present")
  else (false, "")

/-- Modelled from the spec: `voxanimate.restore_slide_animations` clears
the live timeline, replays every captured effect in its original order and
appends the one new play-audio effect (spec section 4.4).  The returned
list is the timeline the slide holds afterwards. -/
def restore_slide_animations (snap : AnimationSnapshot) (audioShapeId : Nat) : List AnimEffect :=
  snap.effects ++ [playAudioEffect audioShapeId]

/-! Run-level model of the worker of `generate_narration` (lines 912-1301),
beginning after the validation and host-open steps succeed.  Side effects
are recorded as events. -/

inductive Ev
  | snapCaptured (idx : Nat)
  | snapFailed (idx : Nat)
  | manifestAppend (idx : Nat)
  | transcode (idx : Nat) (exitCode : Nat)
  | clearTimeline (idx : Nat)
  | insertAudio (idx : Nat)
  | restoreCall (idx : Nat) (ok : Bool)
  | basicSetup (idx : Nat)
  | saveSlide (idx : Nat)
  | saveFinal
  | skipNoNotes (idx : Nat)
  | skipUnsafe (idx : Nat)
  | apiError (idx : Nat)
  | netError (idx : Nat)
  | insertError (idx : Nat)
  | audioOnlyDone (idx : Nat)
  deriving DecidableEq, Repr

instance : Inhabited Ev := ⟨.saveFinal⟩

/-- Per-slide run inputs: the parsed notes, the slide's shapes, the
outcome of each TTS attempt, the transcoder's exit status, whether the
backup of line 1036 raises, the slide's live timeline, whether inserting
the audio shape raises (both AddMediaObject calls), and the value returned
by the animation restore. -/
structure SlideIn where
  toks : List NoteTok
  shapes : List PShape
  attempts : List NetOutcome
  ffmpegExit : Nat
  snapshotRaises : Bool
  timeline : List AnimEffect
  insertRaises : Bool
  restoreOk : Bool
  deriving DecidableEq, Repr

instance : Inhabited SlideIn :=
  ⟨{ toks := [], shapes := [], attempts := [], ffmpegExit := 0,
     snapshotRaises := false, timeline := [], insertRaises := false,
     restoreOk := true }⟩

/-- One manifest record (lines 1143): digests are modelled by the digested
data itself. -/
structure MEntry where
  slide : Nat
  voiceId : String
  noteText : String
  wavContent : List Nat
  byteCount : Nat
  attempts : Nat
  httpStatus : Nat
  deriving DecidableEq, Repr

/-- Whole-run inputs.  `cancelFrom = some c` means the first `c` polls of
`cancel_event.is_set()` return false and every later poll returns true
(the event is set once and never cleared during the run); `none` means the
event is never set. -/
structure RunInput where
  total : Nat
  spec : String
  audioOnly : Bool
  cancelFrom : Option Nat
  slides : List SlideIn
  deckBase : String
  sessionTs : String
  voiceId : String
  deriving Repr

/-- Inputs of the slide with 1-based index `i`. -/
def slideData (inp : RunInput) (i : Nat) : SlideIn :=
  (inp.slides[i - 1]?).getD default

/-- Per-run manifest file name, line 926:
`f"{deck_base}_{session_ts}_manifest.json"` (inside the logs directory). -/
def manifestPath (deckBase sessionTs : String) : String :=
  deckBase ++ "_" ++ sessionTs ++ "_manifest.json"

structure RunState where
  trace : List Ev
  processed : Nat
  manifest : List MEntry
  checksum : Option (List MEntry)
  snapshots : List (Nat × Option AnimationSnapshot)
  checks : Nat
  deriving DecidableEq, Repr

def initState : RunState := ⟨[], 0, [], none, [], 0⟩

/-- Value of the `k`-th (0-based) poll of `cancel_event.is_set()`. -/
def isSet (cancelFrom : Option Nat) (k : Nat) : Bool :=
  match cancelFrom with
  | none => false
  | some c => decide (c ≤ k)

/-- `animation_snapshots.get(idx)` (lines 1171 and 1234): a missing key
behaves like a stored None. -/
def lookupSnap (snaps : List (Nat × Option AnimationSnapshot)) (i : Nat) :
    Option AnimationSnapshot :=
  match snaps.find? (fun p => p.1 == i) with
  | some p => p.2
  | none => none

/-- What the backup loop of lines 1026-1046 stores for slide `i`: `none`
when the backup raised, otherwise the snapshot of the live timeline. -/
def snapOf (inp : RunInput) (i : Nat) : Option AnimationSnapshot :=
  if (slideData inp i).snapshotRaises then none
  else some ⟨(slideData inp i).timeline⟩

/-- One iteration body of the batch snapshot loop (lines 1029-1046). -/
def snapSlide (inp : RunInput) (i : Nat) (st : RunState) : RunState :=
  if (slideData inp i).snapshotRaises then
    { st with trace := st.trace ++ [.snapFailed i],
              snapshots := st.snapshots ++ [(i, none)] }
  else
    { st with trace := st.trace ++ [.snapCaptured i],
              snapshots := st.snapshots ++ [(i, snapOf inp i)] }

/-- The batch snapshot loop (lines 1026-1046), with its per-iteration
cancellation poll (line 1027). -/
def snapPhase (inp : RunInput) : List Nat → RunState → RunState
  | [], st => st
  | i :: rest, st =>
    if isSet inp.cancelFrom st.checks then { st with checks := st.checks + 1 }
    else snapPhase inp rest (snapSlide inp i { st with checks := st.checks + 1 })

/-- Classification of a slide's pre-attach processing: empty resolved
notes (line 1087), a transport failure after the attempt budget
(line 1120), a non-200 final response (line 1262), or a 200 response. -/
inductive SlideCase
  | noNotes
  | netFail
  | apiFail (r : HttpResp) (a : Nat)
  | ok200 (r : HttpResp) (a : Nat)
  deriving Repr

def classifySlide (sl : SlideIn) : SlideCase :=
  if resolveNote sl.toks sl.shapes = "" then .noNotes
  else
    match ttsPost sl.attempts with
    | .netFail _ _ => .netFail
    | .gotResp r a _ => if r.status = 200 then .ok200 r a else .apiFail r a

/-- Events of the attach sequence, lines 1185-1260: clear the timeline,
insert the audio shape (an exception here is caught at line 1259 and the
slide is abandoned with its timeline cleared), then either the restore
call (snapshot present, line 1240) or the basic fallback (snapshot None,
lines 1251-1252), then the per-slide save (line 1256). -/
def attachEvents (i : Nat) (sl : SlideIn) (haveSnap : Bool) : List Ev :=
  .clearTimeline i ::
    (if sl.insertRaises then [.insertError i]
     else .insertAudio i ::
       (if haveSnap then [.restoreCall i sl.restoreOk, .saveSlide i]
        else [.basicSetup i, .saveSlide i]))

/-- Events after a successful conversion in a document-mutating run: the
unsafe-animation check when a snapshot is present (lines 1170-1179), else
the attach sequence; a missing snapshot bypasses the check (line 1172). -/
def postConvertEvents (sl : SlideIn) (i : Nat) :
    Option AnimationSnapshot → List Ev
  | some s =>
    if (should_skip_audio_attachment s).1 then [.skipUnsafe i]
    else attachEvents i sl true
  | none => attachEvents i sl false

/-- Events appended by one main-loop iteration for slide `i`
(lines 1061-1264). -/
def slideBlock (inp : RunInput) (snaps : List (Nat × Option AnimationSnapshot))
    (i : Nat) : List Ev :=
  let sl := slideData inp i
  match classifySlide sl with
  | .noNotes => [.skipNoNotes i]
  | .netFail => [.netError i]
  | .apiFail _ _ => [.apiError i]
  | .ok200 _ _ =>
    .manifestAppend i :: .transcode i sl.ffmpegExit ::
      (if inp.audioOnly then [.audioOnlyDone i]
       else postConvertEvents sl i (lookupSnap snaps i))

/-- The manifest record appended for slide `i`, if any: exactly the 200
branch of lines 1125-1143 appends one. -/
def slideEntry (inp : RunInput) (i : Nat) : Option MEntry :=
  let sl := slideData inp i
  match classifySlide sl with
  | .ok200 r a =>
    some { slide := i, voiceId := inp.voiceId,
           noteText := resolveNote sl.toks sl.shapes,
           wavContent := r.content, byteCount := r.content.length,
           attempts := a, httpStatus := r.status }
  | _ => none

/-- One main-loop iteration for slide `i` (lines 1061-1266).  Every path
through the body increments `processed` (lines 1089, 1122, 1167, 1178,
1266); the manifest and its checksum stamp are rewritten exactly when a
record is appended (lines 1136-1153). -/
def slideStep (inp : RunInput) (i : Nat) (st : RunState) : RunState :=
  { trace := st.trace ++ slideBlock inp st.snapshots i,
    processed := st.processed + 1,
    manifest := st.manifest ++ (slideEntry inp i).toList,
    checksum :=
      if (slideEntry inp i).isSome then some (st.manifest ++ (slideEntry inp i).toList)
      else st.checksum,
    snapshots := st.snapshots,
    checks := st.checks }

/-- The main per-slide loop (lines 1056-1266) with its per-iteration
cancellation poll (line 1057). -/
def mainLoop (inp : RunInput) : List Nat → RunState → RunState
  | [], st => st
  | i :: rest, st =>
    if isSet inp.cancelFrom st.checks then { st with checks := st.checks + 1 }
    else mainLoop inp rest (slideStep inp i { st with checks := st.checks + 1 })

/-- Final user-facing message, lines 1268-1280 and the early return of
line 952: none of the variants carries any count. -/
inductive Report
  | complete
  | completeAudioOnly
  | cancelled
  | noSlides
  deriving DecidableEq, Repr

def reportMsg (audioOnly cancelled : Bool) : Report :=
  if cancelled then .cancelled
  else if audioOnly then .completeAudioOnly
  else .complete

structure RunResult where
  trace : List Ev
  processed : Nat
  manifest : List MEntry
  checksum : Option (List MEntry)
  snapshots : List (Nat × Option AnimationSnapshot)
  checks : Nat
  report : Report
  deriving Repr

/-- The whole worker: range selection (line 950, empty selection returns
early), the batch snapshot phase unless audio-only (lines 957-1048), the
main loop, the final message (lines 1268-1280), and the run-end save in
the `finally` block for document-mutating runs (lines 1285-1293). -/
def runWorker (inp : RunInput) : RunResult :=
  let sel := select_slides inp.total inp.spec
  if sel = [] then ⟨[], 0, [], none, [], 0, .noSlides⟩
  else
    let st0 := if inp.audioOnly then initState else snapPhase inp sel initState
    let st1 := mainLoop inp sel st0
    { trace := if inp.audioOnly then st1.trace else st1.trace ++ [.saveFinal],
      processed := st1.processed,
      manifest := st1.manifest,
      checksum := st1.checksum,
      snapshots := st1.snapshots,
      checks := st1.checks,
      report := reportMsg inp.audioOnly (isSet inp.cancelFrom st1.checks) }

/-! Derived views of a trace used to state the claims. -/

/-- State of a slide's live animation timeline implied by a trace prefix. -/
inductive TlTag
  | original
  | cleared
  | restored
  | restoreFailed
  | basic
  deriving DecidableEq, Repr

def tlStepEv (i : Nat) (t : TlTag) : Ev → TlTag
  | .clearTimeline j => if j = i then .cleared else t
  | .restoreCall j ok => if j = i then (if ok then .restored else .restoreFailed) else t
  | .basicSetup j => if j = i then .basic else t
  | _ => t

/-- Timeline state of slide `i` after the events `tr`. -/
def tlTagAt (tr : List Ev) (i : Nat) : TlTag :=
  tr.foldl (tlStepEv i) .original

def Ev.isSnapEv : Ev → Bool
  | .snapCaptured _ => true
  | .snapFailed _ => true
  | _ => false

/-- Events that mutate a slide's timeline or shapes. -/
def Ev.isMutation : Ev → Bool
  | .clearTimeline _ => true
  | .insertAudio _ => true
  | .restoreCall _ _ => true
  | .basicSetup _ => true
  | _ => false

def Ev.isSaveEv : Ev → Bool
  | .saveSlide _ => true
  | .saveFinal => true
  | _ => false

/-- The slide index an event belongs to, if any. -/
def Ev.idx? : Ev → Option Nat
  | .snapCaptured i => some i
  | .snapFailed i => some i
  | .manifestAppend i => some i
  | .transcode i _ => some i
  | .clearTimeline i => some i
  | .insertAudio i => some i
  | .restoreCall i _ => some i
  | .basicSetup i => some i
  | .saveSlide i => some i
  | .saveFinal => none
  | .skipNoNotes i => some i
  | .skipUnsafe i => some i
  | .apiError i => some i
  | .netError i => some i
  | .insertError i => some i
  | .audioOnlyDone i => some i

/-- Events recording a per-slide failure (network, API, or host-insert). -/
def slideFailedEv (tr : List Ev) (i : Nat) : Bool :=
  tr.contains (.netError i) || tr.contains (.apiError i) || tr.contains (.insertError i)

/-! Formal readings of the claims that the code refutes; each is settled
by a counterexample theorem below. -/

/-- Reading of claim C3: whenever the transcoder exits non-zero for a
slide, that slide's outcome is a per-slide failure. -/
def claimC3 : Prop :=
  ∀ (inp : RunInput) (i e : Nat),
    Ev.transcode i e ∈ (runWorker inp).trace → e ≠ 0 →
    slideFailedEv (runWorker inp).trace i = true

/-- Reading of claim C2 (the summary reported to the caller contains the
processed count): the final report determines the processed count. -/
def summaryCarriesProcessed : Prop :=
  ∀ inp₁ inp₂ : RunInput,
    (runWorker inp₁).report = (runWorker inp₂).report →
    (runWorker inp₁).processed = (runWorker inp₂).processed

/-- Reading of claim C5: the manifest holds exactly one record per
processed slide. -/
def claimC5 : Prop :=
  ∀ inp : RunInput, (runWorker inp).manifest.length = (runWorker inp).processed

/-- A token of the selection grammar of spec section 4.1 that parses to
some valid index: either an integer, or a dash token whose two sides are
each empty or an integer. -/
def wellFormedToken (part : String) : Prop :=
  (pyParseInt part).isSome = true ∨
  (part.data.contains '-' = true ∧
    ((splitDash part).1 = "" ∨ (pyParseInt (splitDash part).1).isSome = true) ∧
    ((splitDash part).2 = "" ∨ (pyParseInt (splitDash part).2).isSome = true))

instance : ∀ p, Decidable (wellFormedToken p) := fun p => by
  unfold wellFormedToken; exact inferInstance

/-- Reading of claim C6: a malformed token contributes nothing to the
selector's output. -/
def claimC6 : Prop :=
  ∀ (total : Nat) (part : String), ¬ wellFormedToken part → tokenIdxs total part = []

/-- Claim C1, first half: a slide whose timeline ends in the cleared
intermediate state has its original timeline backed up in a snapshot. -/
def clearedBackedUpB (inp : RunInput) : Bool :=
  (select_slides inp.total inp.spec).all fun i =>
    !(tlTagAt (runWorker inp).trace i == .cleared) ||
      (lookupSnap (runWorker inp).snapshots i).isSome

/-- Claim C1, second half: at every document save no selected slide's
timeline is in the cleared intermediate state. -/
def savesOnlyCompleteB (inp : RunInput) : Bool :=
  (List.range (runWorker inp).trace.length).all fun k =>
    !((runWorker inp).trace.getD k default).isSaveEv ||
      (select_slides inp.total inp.spec).all fun i =>
        !(tlTagAt ((runWorker inp).trace.take k) i == .cleared)

/-- Reading of claim C1 for one run. -/
def claimC1 (inp : RunInput) : Prop :=
  clearedBackedUpB inp = true ∧ savesOnlyCompleteB inp = true

/-! Structural view of the trace used for the amended claim C1: every
per-slide save is immediately preceded by the restore call or the basic
fallback of its own slide. -/

def pairOk (e₁ e₂ : Ev) : Bool :=
  match e₂ with
  | .saveSlide i =>
    match e₁ with
    | .restoreCall j _ => j == i
    | .basicSetup j => j == i
    | _ => false
  | _ => true

def headNotSave : List Ev → Bool
  | [] => true
  | e :: _ =>
    match e with
    | .saveSlide _ => false
    | _ => true

def goodSaveStruct (l : List Ev) : Prop :=
  List.Chain' (fun a b => pairOk a b = true) l ∧ headNotSave l = true

/-! Concrete run inputs used by the counterexamples and witnesses. -/

/-- A slide whose whole pipeline succeeds. -/
def okSlide : SlideIn :=
  { toks := [.lit "a"], shapes := [], attempts := [.resp ⟨200, [7]⟩],
    ffmpegExit := 0, snapshotRaises := false, timeline := [],
    insertRaises := false, restoreOk := true }

/-- A slide with no notes at all. -/
def emptySlide : SlideIn :=
  { toks := [], shapes := [], attempts := [], ffmpegExit := 0,
    snapshotRaises := false, timeline := [], insertRaises := false,
    restoreOk := true }

def mkRun (slides : List SlideIn) : RunInput :=
  { total := slides.length, spec := "", audioOnly := false, cancelFrom := none,
    slides := slides, deckBase := "d", sessionTs := "t", voiceId := "v" }

/-- One-slide run where the up-front backup raises and the audio insert
raises after the timeline clear. -/
def c1run : RunInput :=
  mkRun [{ okSlide with snapshotRaises := true, insertRaises := true }]

/-- One-slide run whose only synthesis attempt returns HTTP 400. -/
def apiFailRun : RunInput :=
  mkRun [{ okSlide with attempts := [.resp ⟨400, []⟩] }]

/-- One-slide run where the transcoder exits with status 1 and everything
else succeeds. -/
def c3run : RunInput :=
  mkRun [{ okSlide with ffmpegExit := 1 }]

/-- One-slide run where the backup raises but the attach succeeds. -/
def c10run : RunInput :=
  mkRun [{ okSlide with snapshotRaises := true }]

/-- Attempt outcomes: three successive 500 responses. -/
def l500 : List NetOutcome := [.resp ⟨500, []⟩, .resp ⟨500, []⟩, .resp ⟨500, []⟩]

/-- Attempt outcomes: a single 400 response. -/
def l400 : List NetOutcome := [.resp ⟨400, []⟩]

/-- A slide carrying one ordinary entrance animation. -/
def w9slide : SlideModel :=
  ⟨[{ targetShape := 3, category := .entrance, trigger := .onClick, isTextAnim := false }]⟩

/-- Two text shapes, listed bottom-first so the positional sort is visible. -/
def w7shapes : List PShape :=
  [{ shapeId := 1, isPlaceholder := false, isTitlePlaceholder := false, isGroup := false,
     isTable := false, hasTextFrame := true, rawText := "B", top := 2, left := 0 },
   { shapeId := 2, isPlaceholder := false, isTitlePlaceholder := false, isGroup := false,
     isTable := false, hasTextFrame := true, rawText := "A", top := 1, left := 0 }]

/-- A note consisting of a literal prefix and one marker occurrence. -/
def w7toks : List NoteTok := [.lit "x ", .marker "### Read Slide"]

/-- A note `say ` followed by one marker occurrence that matched the text
`### Read Slide`. -/
def c7toks : List NoteTok := [.lit "say ", .marker "### Read Slide"]

/-- One eligible shape whose text `C:\Users` contains the bad escape
`\U`. -/
def c7shapesEsc : List PShape :=
  [{ shapeId := 1, isPlaceholder := false, isTitlePlaceholder := false, isGroup := false,
     isTable := false, hasTextFrame := true, rawText := "C:\\Users", top := 1, left := 0 }]

/-- One eligible shape whose text is the group-0 reference `\g<0>`. -/
def c7shapesG0 : List PShape :=
  [{ shapeId := 1, isPlaceholder := false, isTitlePlaceholder := false, isGroup := false,
     isTable := false, hasTextFrame := true, rawText := "\\g<0>", top := 1, left := 0 }]

/-! Pure descriptions of what each loop of the worker appends, used to
decompose the run. -/

/-- Events appended by the batch snapshot loop started with `checks`
cancellation polls already performed. -/
def snapBlocks (inp : RunInput) (checks : Nat) : List Nat → List Ev
  | [] => []
  | i :: rest =>
    if isSet inp.cancelFrom checks then []
    else
      (if (slideData inp i).snapshotRaises then [.snapFailed i] else [.snapCaptured i]) ++
        snapBlocks inp (checks + 1) rest

/-- Snapshot-table entries appended by the batch snapshot loop. -/
def snapPairs (inp : RunInput) (checks : Nat) :
    List Nat → List (Nat × Option AnimationSnapshot)
  | [] => []
  | i :: rest =>
    if isSet inp.cancelFrom checks then []
    else (i, snapOf inp i) :: snapPairs inp (checks + 1) rest

/-- Events appended by the main loop. -/
def mainBlocks (inp : RunInput) (snaps : List (Nat × Option AnimationSnapshot))
    (checks : Nat) : List Nat → List Ev
  | [] => []
  | i :: rest =>
    if isSet inp.cancelFrom checks then []
    else slideBlock inp snaps i ++ mainBlocks inp snaps (checks + 1) rest

/-- Manifest records appended by the main loop. -/
def mainEntries (inp : RunInput) (checks : Nat) : List Nat → List MEntry
  | [] => []
  | i :: rest =>
    if isSet inp.cancelFrom checks then []
    else (slideEntry inp i).toList ++ mainEntries inp (checks + 1) rest

/-- The same slide inputs with the transcoder exit status normalised. -/
def clearExit (s : SlideIn) : SlideIn := { s with ffmpegExit := 0 }

/-- The same event with a recorded transcoder exit status normalised. -/
def eraseExit : Ev → Ev
  | .transcode i _ => .transcode i 0
  | e => e

def isSaveSlideEv : Ev → Bool
  | .saveSlide _ => true
  | _ => false

end Voxsmith

namespace Voxsmith

/-! General helper lemmas. -/

theorem getD_of_lt {α : Type} [Inhabited α] (l : List α) (k : Nat) (h : k < l.length) :
    l.getD k default = l[k] := by
  simp [List.getD_eq_getElem?_getD, List.getElem?_eq_getElem h]

theorem getD_mem {α : Type} [Inhabited α] (l : List α) (k : Nat) (h : k < l.length) :
    l.getD k default ∈ l := by
  rw [getD_of_lt l k h]; exact List.getElem_mem h

theorem getD_default_of_le {α : Type} [Inhabited α] (l : List α) (k : Nat)
    (h : l.length ≤ k) : l.getD k default = default := by
  simp [List.getD_eq_getElem?_getD, List.getElem?_eq_none h]

/-! The synthesis retry loop: behaviour of `ttsGo` along the reachable
instances (`attempts + fuel = NET_MAX_ATTEMPTS`, `attempts` below the
budget, sleeps so far matching the backoff schedule, all previous attempts
retryable). -/

theorem ttsGo_spec (l : List NetOutcome) :
    ∀ (fuel attempts : Nat) (s : List ℚ),
      attempts + fuel = NET_MAX_ATTEMPTS → attempts < NET_MAX_ATTEMPTS →
      s = (List.range attempts).map (fun k => backoff (k + 1)) →
      (∀ k, 1 ≤ k → k ≤ attempts → retryable (attemptOutcome l k) = true) →
      (ttsGo l fuel attempts s).attempts ≤ NET_MAX_ATTEMPTS ∧
      attempts < (ttsGo l fuel attempts s).attempts ∧
      (ttsGo l fuel attempts s).sleeps =
        (List.range ((ttsGo l fuel attempts s).attempts - 1)).map (fun k => backoff (k + 1)) ∧
      (∀ k, 1 ≤ k → k < (ttsGo l fuel attempts s).attempts →
        retryable (attemptOutcome l k) = true) := by
  have hmax : NET_MAX_ATTEMPTS = 3 := rfl
  intro fuel
  induction fuel with
  | zero =>
    intro attempts s h1 h2 _ _
    rw [hmax] at h1 h2; omega
  | succ n ih =>
    intro attempts s h1 h2 hs hhist
    cases ho : attemptOutcome l (attempts + 1) with
    | resp r =>
      by_cases h200 : r.status = 200
      · have hres : ttsGo l (n + 1) attempts s = .gotResp r (attempts + 1) s := by
          simp [ttsGo, ho, h200]
        rw [hres]
        refine ⟨?_, ?_, ?_, ?_⟩
        · simp only [TtsResult.attempts]; rw [hmax] at h2 ⊢; omega
        · simp only [TtsResult.attempts]; omega
        · simp only [TtsResult.sleeps, TtsResult.attempts, Nat.add_sub_cancel]
          exact hs
        · intro k hk1 hk2
          simp only [TtsResult.attempts] at hk2
          exact hhist k hk1 (by omega)
      · by_cases hretry : 500 ≤ r.status ∧ r.status < 600 ∧ attempts + 1 < NET_MAX_ATTEMPTS
        · have hres : ttsGo l (n + 1) attempts s =
              ttsGo l n (attempts + 1) (s ++ [backoff (attempts + 1)]) := by
            simp [ttsGo, ho, h200, hretry]
          have hs' : s ++ [backoff (attempts + 1)] =
              (List.range (attempts + 1)).map (fun k => backoff (k + 1)) := by
            rw [hs, List.range_succ, List.map_append]; rfl
          have hh' : ∀ k, 1 ≤ k → k ≤ attempts + 1 →
              retryable (attemptOutcome l k) = true := by
            intro k hk1 hk2
            rcases Nat.lt_or_ge k (attempts + 1) with h | h
            · exact hhist k hk1 (by omega)
            · have hke : k = attempts + 1 := by omega
              subst hke
              rw [ho]
              simp only [retryable, Bool.and_eq_true, decide_eq_true_eq]
              exact ⟨hretry.1, hretry.2.1⟩
          have hIH := ih (attempts + 1) (s ++ [backoff (attempts + 1)])
            (by omega) hretry.2.2 hs' hh'
          rw [hres]
          exact ⟨hIH.1, by have := hIH.2.1; omega, hIH.2.2.1, hIH.2.2.2⟩
        · have hres : ttsGo l (n + 1) attempts s = .gotResp r (attempts + 1) s := by
            simp [ttsGo, ho, h200, hretry]
          rw [hres]
          refine ⟨?_, ?_, ?_, ?_⟩
          · simp only [TtsResult.attempts]; rw [hmax] at h2 ⊢; omega
          · simp only [TtsResult.attempts]; omega
          · simp only [TtsResult.sleeps, TtsResult.attempts, Nat.add_sub_cancel]
            exact hs
          · intro k hk1 hk2
            simp only [TtsResult.attempts] at hk2
            exact hhist k hk1 (by omega)
    | netErr =>
      by_cases hlt : attempts + 1 < NET_MAX_ATTEMPTS
      · have hres : ttsGo l (n + 1) attempts s =
            ttsGo l n (attempts + 1) (s ++ [backoff (attempts + 1)]) := by
          simp [ttsGo, ho, hlt]
        have hs' : s ++ [backoff (attempts + 1)] =
            (List.range (attempts + 1)).map (fun k => backoff (k + 1)) := by
          rw [hs, List.range_succ, List.map_append]; rfl
        have hh' : ∀ k, 1 ≤ k → k ≤ attempts + 1 →
            retryable (attemptOutcome l k) = true := by
          intro k hk1 hk2
          rcases Nat.lt_or_ge k (attempts + 1) with h | h
          · exact hhist k hk1 (by omega)
          · have hke : k = attempts + 1 := by omega
            subst hke
            rw [ho]; rfl
        have hIH := ih (attempts + 1) (s ++ [backoff (attempts + 1)])
          (by omega) hlt hs' hh'
        rw [hres]
        exact ⟨hIH.1, by have := hIH.2.1; omega, hIH.2.2.1, hIH.2.2.2⟩
      · have hres : ttsGo l (n + 1) attempts s = .netFail (attempts + 1) s := by
          simp [ttsGo, ho, hlt]
        rw [hres]
        refine ⟨?_, ?_, ?_, ?_⟩
        · simp only [TtsResult.attempts]; rw [hmax] at h2 ⊢; omega
        · simp only [TtsResult.attempts]; omega
        · simp only [TtsResult.sleeps, TtsResult.attempts, Nat.add_sub_cancel]
          exact hs
        · intro k hk1 hk2
          simp only [TtsResult.attempts] at hk2
          exact hhist k hk1 (by omega)

/-- Consequences of `ttsGo_spec` for the whole loop. -/
theorem ttsPost_spec (l : List NetOutcome) :
    (ttsPost l).attempts ≤ 3 ∧
    (ttsPost l).sleeps =
      (List.range ((ttsPost l).attempts - 1)).map (fun k => backoff (k + 1)) ∧
    (∀ k, 1 ≤ k → k < (ttsPost l).attempts → retryable (attemptOutcome l k) = true) := by
  have h := ttsGo_spec l NET_MAX_ATTEMPTS 0 [] (by omega) (by decide) (by simp) (by omega)
  exact ⟨h.1, h.2.2.1, h.2.2.2⟩

/-! Selector lemmas. -/

theorem range_map_succ_eq (total : Nat) :
    (List.range total).map (· + 1) = List.range' 1 total := by
  rw [List.range'_eq_map_range]
  exact List.map_congr_left fun i _ => Nat.add_comm i 1

theorem tokenIdxs_bounds (total : Nat) (part : String) :
    ∀ x ∈ tokenIdxs total part, 1 ≤ x ∧ x ≤ total := by
  intro x hx
  unfold tokenIdxs at hx
  by_cases hd : part.data.contains '-' = true
  · rw [if_pos hd] at hx
    split at hx
    next hle =>
      rw [List.mem_range'_1] at hx
      unfold rangeStart rangeEnd at hx hle
      omega
    next hle => exact absurd hx (List.not_mem_nil x)
  · rw [if_neg hd] at hx
    cases hp : pyParseInt part with
    | none =>
      rw [hp] at hx
      exact absurd hx (List.not_mem_nil x)
    | some n =>
      rw [hp] at hx
      have hx' : (1 ≤ n ∧ n ≤ (total : Int)) ∧ x = n.toNat := by simpa using hx
      obtain ⟨⟨h1, h2⟩, rfl⟩ := hx'
      omega

theorem sortedDedup_sorted_le (l : List Nat) : List.Sorted (· ≤ ·) (sortedDedup l) :=
  List.Pairwise.sublist (List.dedup_sublist _) (List.sorted_insertionSort _ l)

theorem sortedDedup_nodup (l : List Nat) : (sortedDedup l).Nodup :=
  List.nodup_dedup _

theorem sortedDedup_sorted_lt (l : List Nat) : List.Sorted (· < ·) (sortedDedup l) :=
  (sortedDedup_sorted_le l).lt_of_le (sortedDedup_nodup l)

theorem mem_sortedDedup {l : List Nat} {x : Nat} : x ∈ sortedDedup l ↔ x ∈ l := by
  unfold sortedDedup
  rw [List.mem_dedup]
  exact (List.perm_insertionSort _ l).mem_iff

theorem select_slides_sorted_lt (total : Nat) (spec : String) :
    List.Sorted (· < ·) (select_slides total spec) := by
  unfold select_slides
  split
  · rw [range_map_succ_eq]
    exact List.pairwise_lt_range' 1 total
  · exact sortedDedup_sorted_lt _

theorem select_slides_nodup (total : Nat) (spec : String) :
    (select_slides total spec).Nodup := by
  unfold select_slides
  split
  · rw [range_map_succ_eq]
    exact List.nodup_range' 1 total
  · exact sortedDedup_nodup _

theorem select_slides_bounds (total : Nat) (spec : String) :
    ∀ x ∈ select_slides total spec, 1 ≤ x ∧ x ≤ total := by
  intro x hx
  unfold select_slides at hx
  split at hx
  · rw [range_map_succ_eq, List.mem_range'_1] at hx
    omega
  · rw [mem_sortedDedup, List.mem_flatten] at hx
    obtain ⟨l', hl', hxl⟩ := hx
    rw [List.mem_map] at hl'
    obtain ⟨p, _, rfl⟩ := hl'
    exact tokenIdxs_bounds total p x hxl

theorem tokenIdxs_single_malformed (total : Nat) (part : String)
    (hd : part.data.contains '-' = false) (hp : pyParseInt part = none) :
    tokenIdxs total part = [] := by
  unfold tokenIdxs
  rw [if_neg (by rw [hd]; exact Bool.false_ne_true), hp]

theorem tokenIdxs_range_defaults (total : Nat) (part : String)
    (hd : part.data.contains '-' = true)
    (ha : pyParseInt (splitDash part).1 = none)
    (hb : pyParseInt (splitDash part).2 = none)
    (ht : 1 ≤ total) :
    tokenIdxs total part = List.range' 1 total := by
  have hst : rangeStart part = 1 := by
    unfold rangeStart; rw [ha]; simp
  have hen : rangeEnd total part = (total : Int) := by
    unfold rangeEnd; rw [hb]; simp
  unfold tokenIdxs
  rw [if_pos hd, hst, hen, if_pos (by exact_mod_cast ht)]
  simp

/-- C6 (counterexample): the claim says a malformed token contributes
nothing to the selector's output, but the token `foo-bar` — whose dash
sides both fail to parse — is treated as a dash token with both endpoints
defaulted, so on a 5-slide deck it selects every slide. -/
theorem C6_malformed_token_counterexample :
    ¬ claimC6 ∧ select_slides 5 "foo-bar" = [1, 2, 3, 4, 5] := by
  refine ⟨fun h => ?_, by decide⟩
  have h5 := h 5 "foo-bar" (by decide)
  have hne : tokenIdxs 5 "foo-bar" = [1, 2, 3, 4, 5] := by decide
  rw [h5] at hne
  exact absurd hne (by decide)

/-- C6 (amended): the selector's output is always a strictly ascending,
duplicate-free list inside `[1, total]` and malformed tokens are never
fatal; a malformed plain token contributes nothing, but in a dash token a
malformed endpoint defaults — the start to 1 and the end to the total — so
a dash token with both endpoints malformed contributes the whole range. -/
theorem C6_selector_amended :
    (∀ (total : Nat) (spec : String),
       List.Sorted (· < ·) (select_slides total spec) ∧
       (select_slides total spec).Nodup ∧
       ∀ x ∈ select_slides total spec, 1 ≤ x ∧ x ≤ total) ∧
    (∀ (total : Nat) (part : String), part.data.contains '-' = false →
       pyParseInt part = none → tokenIdxs total part = []) ∧
    (∀ (total : Nat) (part : String), part.data.contains '-' = true →
       pyParseInt (splitDash part).1 = none → pyParseInt (splitDash part).2 = none →
       1 ≤ total → tokenIdxs total part = List.range' 1 total) := by
  refine ⟨fun total spec => ⟨select_slides_sorted_lt total spec,
    select_slides_nodup total spec, select_slides_bounds total spec⟩,
    tokenIdxs_single_malformed, tokenIdxs_range_defaults⟩

/-- C6 (witness): the amended behaviour at concrete tokens. -/
theorem C6_selector_witness :
    tokenIdxs 7 "abc" = [] ∧ tokenIdxs 4 "foo-bar" = List.range' 1 4 := by
  exact ⟨C6_selector_amended.2.1 7 "abc" (by decide) (by decide),
    C6_selector_amended.2.2 4 "foo-bar" (by decide) (by decide) (by decide) (by omega)⟩

/-- C9: on a slide with N pre-existing effects and no unsafe category,
`restore(slide, snapshot(slide), new_shape)` yields a timeline of exactly
N + 1 effects — the captured effects in their original order followed by
the one new play-audio effect bound to the new shape. -/
theorem C9_restore_roundtrip (s : SlideModel) (shapeId : Nat)
    (_hsafe : (should_skip_audio_attachment (snapshot_slide_animations s)).1 = false) :
    (restore_slide_animations (snapshot_slide_animations s) shapeId).length =
      s.timeline.length + 1 ∧
    (restore_slide_animations (snapshot_slide_animations s) shapeId).getLast? =
      some (playAudioEffect shapeId) ∧
    (restore_slide_animations (snapshot_slide_animations s) shapeId).dropLast =
      s.timeline := by
  unfold restore_slide_animations snapshot_slide_animations
  refine ⟨by simp, ?_, by simp⟩
  simp [List.getLast?_concat]

/-- C9 (witness): the round trip on a slide with one safe entrance
effect. -/
theorem C9_restore_witness :
    (should_skip_audio_attachment (snapshot_slide_animations w9slide)).1 = false ∧
    (restore_slide_animations (snapshot_slide_animations w9slide) 7).length = 2 := by
  refine ⟨by decide, ?_⟩
  have h := C9_restore_roundtrip w9slide 7 (by decide)
  simpa using h.1

/-- C4: the synthesis client makes at most 3 total attempts; the sleeps
performed are exactly the exponential backoff schedule starting at 0.75
seconds and doubling each attempt; every attempt after the first follows a
5xx response or a transport error; a 4xx response on the first attempt is
returned immediately with zero retries; and a final non-200 response
makes the slide fail with an API error while the loop state shape shows
the run moving on to the next slide. -/
theorem C4_retry_policy :
    (∀ l : List NetOutcome,
       (ttsPost l).attempts ≤ 3 ∧
       (ttsPost l).sleeps =
         (List.range ((ttsPost l).attempts - 1)).map (fun k => backoff (k + 1)) ∧
       (∀ k, 1 ≤ k → k < (ttsPost l).attempts → retryable (attemptOutcome l k) = true)) ∧
    (backoff 1 = 3 / 4 ∧ ∀ k, 1 ≤ k → backoff (k + 1) = 2 * backoff k) ∧
    (∀ (l : List NetOutcome) (r : HttpResp),
       attemptOutcome l 1 = .resp r → 400 ≤ r.status → r.status < 500 →
       ttsPost l = .gotResp r 1 []) ∧
    (∀ (inp : RunInput) (i : Nat) (st : RunState) (r : HttpResp) (a : Nat) (s : List ℚ),
       ttsPost (slideData inp i).attempts = .gotResp r a s → r.status ≠ 200 →
       resolveNote (slideData inp i).toks (slideData inp i).shapes ≠ "" →
       slideStep inp i st =
         { st with trace := st.trace ++ [.apiError i],
                   processed := st.processed + 1 }) := by
  refine ⟨ttsPost_spec, ⟨?_, ?_⟩, ?_, ?_⟩
  · norm_num [backoff, NET_BACKOFF_BASE]
  · intro k hk
    obtain ⟨j, rfl⟩ := Nat.exists_eq_add_of_le hk
    simp only [backoff, Nat.add_sub_cancel_left]
    rw [show 1 + j + 1 - 1 = j + 1 from by omega, pow_succ]
    ring
  · intro l r h1 h400 h500
    have hn200 : ¬ r.status = 200 := by omega
    have hn5 : ¬ (500 ≤ r.status ∧ r.status < 600 ∧ 1 < NET_MAX_ATTEMPTS) :=
      fun hcon => absurd hcon.1 (by omega)
    show ttsGo l NET_MAX_ATTEMPTS 0 [] = .gotResp r 1 []
    rw [show NET_MAX_ATTEMPTS = 2 + 1 from rfl]
    unfold ttsGo
    simp only [Nat.zero_add, h1]
    rw [if_neg hn200, if_neg hn5]
  · intro inp i st r a s hpost h200 hnote
    have hcls : classifySlide (slideData inp i) = .apiFail r a := by
      unfold classifySlide
      rw [if_neg hnote, hpost]
      simp [h200]
    simp only [slideStep, slideBlock, slideEntry, hcls]
    simp

theorem parseTmpl_lit :
    ∀ (l : List Char) (fuel : Nat), l.length < fuel → (∀ c ∈ l, c ≠ '\\') →
      parseTmpl fuel l = some (l.map TmplTok.ch) := by
  intro l
  induction l with
  | nil => intro fuel _ _; cases fuel <;> rfl
  | cons c0 rest ih =>
    intro fuel hl hbs
    cases fuel with
    | zero => exact absurd hl (Nat.not_lt_zero _)
    | succ n =>
      have hc0 : c0 ≠ '\\' := hbs c0 (List.mem_cons_self _ _)
      have hrec := ih n (by simp only [List.length_cons] at hl; omega)
        (fun c hc => hbs c (List.mem_cons_of_mem _ hc))
      simp only [parseTmpl]
      rw [if_neg hc0, hrec]
      rfl

theorem expandTmpl_lit (m : String) :
    ∀ l : List Char, expandTmpl (l.map TmplTok.ch) m = String.mk l := by
  intro l
  induction l with
  | nil => rfl
  | cons c rest ih =>
    have h1 : expandTmpl ((c :: rest).map TmplTok.ch) m =
        String.mk [c] ++ expandTmpl (rest.map TmplTok.ch) m := rfl
    rw [h1, ih]
    rfl

/-- C7 (counterexample): `re.sub` treats the extracted slide text as a
replacement template, so the marker is not always replaced by exactly the
extraction.  With extracted text `C:\Users` the bad escape `\U` raises
`re.error`, the handler of line 1082 removes the marker instead of
replacing it, and the resolver returns `say`; with extracted text `\g<0>`
the marker is replaced by its own matched text. -/
theorem C7_template_counterexample :
    ¬ claimC7 ∧
    resolveNote c7toks c7shapesEsc = "say" ∧
    renderWith c7toks (extract_slide_text c7shapesEsc) = "say C:\\Users" ∧
    resolveNote c7toks c7shapesG0 = "say ### Read Slide" ∧
    renderWith c7toks (extract_slide_text c7shapesG0) = "say \\g<0>" := by
  refine ⟨fun h => ?_, by decide, by decide, by decide, by decide⟩
  have hr := h c7toks c7shapesEsc (by decide) (by decide)
  rw [(by decide : resolveNote c7toks c7shapesEsc = "say"),
    (by decide : renderWith c7toks (extract_slide_text c7shapesEsc) = "say C:\\Users")]
    at hr
  exact absurd hr (by decide)

/-- C7 (amended): `read_slide_pattern.sub(slide_text, note)` treats the
extracted text as a replacement template.  When the template parses, every
marker occurrence is replaced by its expansion, group-0 references
expanding to that occurrence's matched text; in particular a
backslash-free extraction parses to a literal template whose substitution
is exactly the extraction, as the claim states.  When the template raises
`re.error` — a bad escape, or a group reference into a pattern with no
groups — the handler of line 1082 removes the marker and strips, as also
happens for an empty extraction.  Shape texts are gathered in stable
(top, left) order, and a slide whose resolved note is empty is skipped
with the processed counter still incremented (no failure event). -/
theorem C7_template_semantics :
    (∀ (toks : List NoteTok) (shapes : List PShape) (tm : List TmplTok),
       markerPresent toks = true → extract_slide_text shapes ≠ "" →
       parse_template (extract_slide_text shapes) = some tm →
       resolveNote toks shapes = renderSub toks tm) ∧
    (∀ (toks : List NoteTok) (shapes : List PShape),
       markerPresent toks = true → extract_slide_text shapes ≠ "" →
       parse_template (extract_slide_text shapes) = none →
       resolveNote toks shapes = pyStrip (renderWith toks "")) ∧
    (∀ (toks : List NoteTok) (shapes : List PShape),
       markerPresent toks = true → extract_slide_text shapes = "" →
       resolveNote toks shapes = pyStrip (renderWith toks "")) ∧
    (∀ s : String, (∀ c ∈ s.data, c ≠ '\\') →
       parse_template s = some (s.data.map TmplTok.ch)) ∧
    (∀ (toks : List NoteTok) (s : String),
       renderSub toks (s.data.map TmplTok.ch) = renderWith toks s) ∧
    (∀ shapes : List PShape,
       (List.insertionSort PosLeP (eligibleItems shapes)).Perm (eligibleItems shapes) ∧
       List.Sorted PosLeP (List.insertionSort PosLeP (eligibleItems shapes))) ∧
    (∀ (inp : RunInput) (i : Nat) (st : RunState),
       resolveNote (slideData inp i).toks (slideData inp i).shapes = "" →
       slideStep inp i st =
         { st with trace := st.trace ++ [.skipNoNotes i],
                   processed := st.processed + 1 }) := by
  refine ⟨?_, ?_, ?_, ?_, ?_, ?_, ?_⟩
  · intro toks shapes tm hm hne htm
    unfold resolveNote
    rw [if_pos hm, if_pos hne, htm]
  · intro toks shapes hm hne htm
    unfold resolveNote
    rw [if_pos hm, if_pos hne, htm]
  · intro toks shapes hm he
    unfold resolveNote
    rw [if_pos hm, if_neg (fun hcon => hcon he)]
  · intro s hbs
    exact parseTmpl_lit s.data (s.data.length + 1) (Nat.lt_succ_self _) hbs
  · intro toks s
    unfold renderSub renderWith
    refine congrArg strConcat (List.map_congr_left fun t _ => ?_)
    cases t with
    | marker m => exact (expandTmpl_lit m s.data).trans rfl
    | lit q => rfl
  · intro shapes
    exact ⟨List.perm_insertionSort _ _, List.sorted_insertionSort _ _⟩
  · intro inp i st hnote
    have hcls : classifySlide (slideData inp i) = .noNotes := by
      unfold classifySlide
      rw [if_pos hnote]
    simp only [slideStep, slideBlock, slideEntry, hcls]
    simp

/-- C7 (witness): at the note `x ` followed by the marker, over a slide
whose two texts sort by position into `A` then `B` — a backslash-free
extraction, so the marker is replaced by exactly the extraction — and the
skip of the empty-notes slide. -/
theorem C7_template_witness :
    resolveNote w7toks w7shapes = renderWith w7toks (extract_slide_text w7shapes) ∧
    resolveNote w7toks w7shapes = "x A\nB" ∧
    slideStep (mkRun [emptySlide]) 1 initState =
      { initState with trace := initState.trace ++ [.skipNoNotes 1],
                       processed := initState.processed + 1 } := by
  refine ⟨?_, by decide,
    C7_template_semantics.2.2.2.2.2.2 (mkRun [emptySlide]) 1 initState (by decide)⟩
  have h1 := C7_template_semantics.1 w7toks w7shapes
    ((extract_slide_text w7shapes).data.map TmplTok.ch) (by decide) (by decide)
    (by decide)
  have h5 := C7_template_semantics.2.2.2.2.1 w7toks (extract_slide_text w7shapes)
  rw [h1]
  exact h5

/-! Decomposition of the worker's loops. -/

theorem slideStep_trace (inp : RunInput) (i : Nat) (st : RunState) :
    (slideStep inp i st).trace = st.trace ++ slideBlock inp st.snapshots i := rfl

theorem slideStep_snapshots (inp : RunInput) (i : Nat) (st : RunState) :
    (slideStep inp i st).snapshots = st.snapshots := rfl

theorem slideStep_checks (inp : RunInput) (i : Nat) (st : RunState) :
    (slideStep inp i st).checks = st.checks := rfl

theorem slideStep_manifest (inp : RunInput) (i : Nat) (st : RunState) :
    (slideStep inp i st).manifest = st.manifest ++ (slideEntry inp i).toList := rfl

theorem slideStep_processed (inp : RunInput) (i : Nat) (st : RunState) :
    (slideStep inp i st).processed = st.processed + 1 := rfl

theorem snapSlide_trace (inp : RunInput) (i : Nat) (st : RunState) :
    (snapSlide inp i st).trace = st.trace ++
      (if (slideData inp i).snapshotRaises then [Ev.snapFailed i]
       else [Ev.snapCaptured i]) := by
  unfold snapSlide
  split <;> simp_all

theorem snapSlide_snapshots (inp : RunInput) (i : Nat) (st : RunState) :
    (snapSlide inp i st).snapshots = st.snapshots ++ [(i, snapOf inp i)] := by
  unfold snapSlide snapOf
  split <;> simp_all

theorem snapSlide_rest (inp : RunInput) (i : Nat) (st : RunState) :
    (snapSlide inp i st).checks = st.checks ∧
    (snapSlide inp i st).manifest = st.manifest ∧
    (snapSlide inp i st).checksum = st.checksum ∧
    (snapSlide inp i st).processed = st.processed := by
  unfold snapSlide
  split <;> exact ⟨rfl, rfl, rfl, rfl⟩

theorem snapPhase_fields (inp : RunInput) :
    ∀ (l : List Nat) (st : RunState),
      (snapPhase inp l st).trace = st.trace ++ snapBlocks inp st.checks l ∧
      (snapPhase inp l st).snapshots = st.snapshots ++ snapPairs inp st.checks l ∧
      (snapPhase inp l st).manifest = st.manifest ∧
      (snapPhase inp l st).checksum = st.checksum ∧
      (snapPhase inp l st).processed = st.processed := by
  intro l
  induction l with
  | nil =>
    intro st
    simp [snapPhase, snapBlocks, snapPairs]
  | cons i rest ih =>
    intro st
    by_cases hc : isSet inp.cancelFrom st.checks
    · have h1 : snapPhase inp (i :: rest) st = { st with checks := st.checks + 1 } := by
        simp only [snapPhase]
        rw [if_pos hc]
      have h2 : snapBlocks inp st.checks (i :: rest) = [] := by
        simp only [snapBlocks]
        rw [if_pos hc]
      have h3 : snapPairs inp st.checks (i :: rest) = [] := by
        simp only [snapPairs]
        rw [if_pos hc]
      rw [h1, h2, h3]
      simp
    · have hstep : snapPhase inp (i :: rest) st =
          snapPhase inp rest (snapSlide inp i { st with checks := st.checks + 1 }) := by
        simp only [snapPhase]
        rw [if_neg hc]
      have hrest := snapSlide_rest inp i { st with checks := st.checks + 1 }
      have hih := ih (snapSlide inp i { st with checks := st.checks + 1 })
      rw [hstep]
      have hb : snapBlocks inp st.checks (i :: rest) =
          (if (slideData inp i).snapshotRaises then [Ev.snapFailed i]
           else [Ev.snapCaptured i]) ++ snapBlocks inp (st.checks + 1) rest := by
        simp only [snapBlocks]
        rw [if_neg hc]
      have hp : snapPairs inp st.checks (i :: rest) =
          (i, snapOf inp i) :: snapPairs inp (st.checks + 1) rest := by
        simp only [snapPairs]
        rw [if_neg hc]
      refine ⟨?_, ?_, ?_, ?_, ?_⟩
      · rw [hih.1, snapSlide_trace, hrest.1, hb]
        simp [List.append_assoc]
      · rw [hih.2.1, snapSlide_snapshots, hrest.1, hp]
        simp [List.append_assoc]
      · rw [hih.2.2.1, hrest.2.1]
      · rw [hih.2.2.2.1, hrest.2.2.1]
      · rw [hih.2.2.2.2, hrest.2.2.2]

theorem mainLoop_fields (inp : RunInput) :
    ∀ (l : List Nat) (st : RunState),
      (mainLoop inp l st).trace = st.trace ++ mainBlocks inp st.snapshots st.checks l ∧
      (mainLoop inp l st).snapshots = st.snapshots ∧
      (mainLoop inp l st).manifest = st.manifest ++ mainEntries inp st.checks l := by
  intro l
  induction l with
  | nil =>
    intro st
    simp [mainLoop, mainBlocks, mainEntries]
  | cons i rest ih =>
    intro st
    by_cases hc : isSet inp.cancelFrom st.checks
    · have h1 : mainLoop inp (i :: rest) st = { st with checks := st.checks + 1 } := by
        simp only [mainLoop]
        rw [if_pos hc]
      have h2 : mainBlocks inp st.snapshots st.checks (i :: rest) = [] := by
        simp only [mainBlocks]
        rw [if_pos hc]
      have h3 : mainEntries inp st.checks (i :: rest) = [] := by
        simp only [mainEntries]
        rw [if_pos hc]
      rw [h1, h2, h3]
      simp
    · have hstep : mainLoop inp (i :: rest) st =
          mainLoop inp rest (slideStep inp i { st with checks := st.checks + 1 }) := by
        simp only [mainLoop]
        rw [if_neg hc]
      have hih := ih (slideStep inp i { st with checks := st.checks + 1 })
      rw [hstep]
      have hb : mainBlocks inp st.snapshots st.checks (i :: rest) =
          slideBlock inp st.snapshots i ++ mainBlocks inp st.snapshots (st.checks + 1) rest := by
        simp only [mainBlocks]
        rw [if_neg hc]
      have he : mainEntries inp st.checks (i :: rest) =
          (slideEntry inp i).toList ++ mainEntries inp (st.checks + 1) rest := by
        simp only [mainEntries]
        rw [if_neg hc]
      refine ⟨?_, ?_, ?_⟩
      · rw [hih.1, slideStep_trace, slideStep_snapshots, slideStep_checks, hb]
        simp [List.append_assoc]
      · rw [hih.2.1, slideStep_snapshots]
      · rw [hih.2.2, slideStep_manifest, slideStep_checks, he]
        simp [List.append_assoc]

theorem runWorker_empty (inp : RunInput)
    (h : select_slides inp.total inp.spec = []) :
    runWorker inp = ⟨[], 0, [], none, [], 0, .noSlides⟩ := by
  simp only [runWorker]
  rw [if_pos h]

theorem runWorker_doc (inp : RunInput) (haud : inp.audioOnly = false)
    (hsel : select_slides inp.total inp.spec ≠ []) :
    (runWorker inp).trace =
      snapBlocks inp 0 (select_slides inp.total inp.spec) ++
        (mainBlocks inp (snapPairs inp 0 (select_slides inp.total inp.spec))
          (snapPhase inp (select_slides inp.total inp.spec) initState).checks
          (select_slides inp.total inp.spec) ++ [Ev.saveFinal]) ∧
    (runWorker inp).snapshots = snapPairs inp 0 (select_slides inp.total inp.spec) := by
  have hsp := snapPhase_fields inp (select_slides inp.total inp.spec) initState
  have hml := mainLoop_fields inp (select_slides inp.total inp.spec)
    (snapPhase inp (select_slides inp.total inp.spec) initState)
  constructor
  · simp only [runWorker]
    rw [if_neg hsel]
    simp only [haud, Bool.false_eq_true, if_false]
    rw [hml.1, hsp.1, hsp.2.1]
    simp [initState, List.append_assoc]
  · simp only [runWorker]
    rw [if_neg hsel]
    simp only [haud, Bool.false_eq_true, if_false]
    rw [hml.2.1, hsp.2.1]
    simp [initState]

theorem runWorker_audio (inp : RunInput) (haud : inp.audioOnly = true)
    (hsel : select_slides inp.total inp.spec ≠ []) :
    (runWorker inp).trace =
      mainBlocks inp [] 0 (select_slides inp.total inp.spec) ∧
    (runWorker inp).snapshots = [] := by
  have hml := mainLoop_fields inp (select_slides inp.total inp.spec) initState
  constructor
  · simp only [runWorker]
    rw [if_neg hsel]
    simp only [haud, if_true]
    rw [hml.1]
    simp [initState]
  · simp only [runWorker]
    rw [if_neg hsel]
    simp only [haud, if_true]
    rw [hml.2.1]
    simp [initState]

theorem runWorker_manifest (inp : RunInput) :
    ∃ c, (runWorker inp).manifest =
      mainEntries inp c (select_slides inp.total inp.spec) := by
  by_cases hsel : select_slides inp.total inp.spec = []
  · refine ⟨0, ?_⟩
    rw [runWorker_empty inp hsel, hsel]
    rfl
  · by_cases haud : inp.audioOnly
    · have hml := mainLoop_fields inp (select_slides inp.total inp.spec) initState
      refine ⟨0, ?_⟩
      simp only [runWorker]
      rw [if_neg hsel]
      simp only [haud, if_true]
      rw [hml.2.2]
      simp [initState]
    · have hsp := snapPhase_fields inp (select_slides inp.total inp.spec) initState
      have hml := mainLoop_fields inp (select_slides inp.total inp.spec)
        (snapPhase inp (select_slides inp.total inp.spec) initState)
      refine ⟨(snapPhase inp (select_slides inp.total inp.spec) initState).checks, ?_⟩
      simp only [runWorker]
      rw [if_neg hsel]
      simp only [haud, Bool.false_eq_true, if_false]
      rw [hml.2.2, hsp.2.2.1]
      simp [initState]

theorem chkInv_slideStep (inp : RunInput) (i : Nat) (st : RunState)
    (h : (st.manifest = [] ∧ st.checksum = none) ∨ st.checksum = some st.manifest) :
    ((slideStep inp i st).manifest = [] ∧ (slideStep inp i st).checksum = none) ∨
      (slideStep inp i st).checksum = some (slideStep inp i st).manifest := by
  cases hE : slideEntry inp i with
  | none =>
    have hm : (slideStep inp i st).manifest = st.manifest := by
      rw [slideStep_manifest, hE]
      simp
    have hc : (slideStep inp i st).checksum = st.checksum := by
      simp only [slideStep, hE]
      simp
    rw [hm, hc]
    exact h
  | some e =>
    refine Or.inr ?_
    simp only [slideStep, hE]
    simp

theorem chkInv_mainLoop (inp : RunInput) :
    ∀ (l : List Nat) (st : RunState),
      ((st.manifest = [] ∧ st.checksum = none) ∨ st.checksum = some st.manifest) →
      (((mainLoop inp l st).manifest = [] ∧ (mainLoop inp l st).checksum = none) ∨
        (mainLoop inp l st).checksum = some (mainLoop inp l st).manifest) := by
  intro l
  induction l with
  | nil => intro st h; exact h
  | cons i rest ih =>
    intro st h
    by_cases hc : isSet inp.cancelFrom st.checks
    · have h1 : mainLoop inp (i :: rest) st = { st with checks := st.checks + 1 } := by
        simp only [mainLoop]
        rw [if_pos hc]
      rw [h1]
      exact h
    · have hstep : mainLoop inp (i :: rest) st =
          mainLoop inp rest (slideStep inp i { st with checks := st.checks + 1 }) := by
        simp only [mainLoop]
        rw [if_neg hc]
      rw [hstep]
      exact ih _ (chkInv_slideStep inp i _ h)

theorem runWorker_chkInv (inp : RunInput) :
    (((runWorker inp).manifest = [] ∧ (runWorker inp).checksum = none) ∨
      (runWorker inp).checksum = some (runWorker inp).manifest) := by
  by_cases hsel : select_slides inp.total inp.spec = []
  · rw [runWorker_empty inp hsel]
    exact Or.inl ⟨rfl, rfl⟩
  · have hbase : ∀ st0 : RunState,
        (st0.manifest = [] ∧ st0.checksum = none) →
        ((mainLoop inp (select_slides inp.total inp.spec) st0).manifest = [] ∧
          (mainLoop inp (select_slides inp.total inp.spec) st0).checksum = none) ∨
        (mainLoop inp (select_slides inp.total inp.spec) st0).checksum =
          some (mainLoop inp (select_slides inp.total inp.spec) st0).manifest :=
      fun st0 h0 => chkInv_mainLoop inp _ st0 (Or.inl h0)
    by_cases haud : inp.audioOnly
    · have h := hbase initState ⟨rfl, rfl⟩
      simp only [runWorker]
      rw [if_neg hsel]
      simp only [haud, if_true]
      exact h
    · have hsp := snapPhase_fields inp (select_slides inp.total inp.spec) initState
      have h := hbase (snapPhase inp (select_slides inp.total inp.spec) initState)
        ⟨hsp.2.2.1, hsp.2.2.2.1⟩
      simp only [runWorker]
      rw [if_neg hsel]
      simp only [haud, Bool.false_eq_true, if_false]
      exact h

theorem mainEntries_nocancel (inp : RunInput) (h : inp.cancelFrom = none) :
    ∀ (c : Nat) (l : List Nat),
      mainEntries inp c l = l.filterMap (slideEntry inp) := by
  intro c l
  induction l generalizing c with
  | nil => rfl
  | cons i rest ih =>
    simp only [mainEntries]
    rw [h]
    simp only [isSet, Bool.false_eq_true, if_false]
    rw [List.filterMap_cons, ih (c + 1)]
    cases slideEntry inp i <;> simp

theorem mainBlocks_nocancel (inp : RunInput) (h : inp.cancelFrom = none)
    (snaps : List (Nat × Option AnimationSnapshot)) :
    ∀ (c : Nat) (l : List Nat),
      mainBlocks inp snaps c l = (l.map (slideBlock inp snaps)).flatten := by
  intro c l
  induction l generalizing c with
  | nil => rfl
  | cons i rest ih =>
    simp only [mainBlocks]
    rw [h]
    simp only [isSet, Bool.false_eq_true, if_false]
    rw [List.map_cons, List.flatten_cons, ih (c + 1)]

theorem snapPairs_nocancel (inp : RunInput) (h : inp.cancelFrom = none) :
    ∀ (c : Nat) (l : List Nat),
      snapPairs inp c l = l.map (fun j => (j, snapOf inp j)) := by
  intro c l
  induction l generalizing c with
  | nil => rfl
  | cons i rest ih =>
    simp only [snapPairs]
    rw [h]
    simp only [isSet, Bool.false_eq_true, if_false]
    rw [List.map_cons, ih (c + 1)]

/-! Facts about the events each block can contain. -/

theorem mem_attachEvents_facts (i : Nat) (sl : SlideIn) (b : Bool) :
    ∀ e ∈ attachEvents i sl b, e.idx? = some i ∧ e.isSnapEv = false := by
  intro e he
  unfold attachEvents at he
  rcases List.mem_cons.mp he with rfl | he
  · exact ⟨rfl, rfl⟩
  · split at he
    · have h1 : e = Ev.insertError i := by simpa using he
      subst h1
      exact ⟨rfl, rfl⟩
    · rcases List.mem_cons.mp he with rfl | he
      · exact ⟨rfl, rfl⟩
      · split at he
        · rcases (by simpa using he :
              e = Ev.restoreCall i sl.restoreOk ∨ e = Ev.saveSlide i) with rfl | rfl <;>
            exact ⟨rfl, rfl⟩
        · rcases (by simpa using he :
              e = Ev.basicSetup i ∨ e = Ev.saveSlide i) with rfl | rfl <;>
            exact ⟨rfl, rfl⟩

theorem mem_slideBlock_facts (inp : RunInput)
    (snaps : List (Nat × Option AnimationSnapshot)) (i : Nat) :
    ∀ e ∈ slideBlock inp snaps i, e.idx? = some i ∧ e.isSnapEv = false := by
  intro e he
  cases hcl : classifySlide (slideData inp i) with
  | noNotes =>
    simp only [slideBlock, hcl] at he
    rcases (by simpa using he : e = Ev.skipNoNotes i) with rfl
    exact ⟨rfl, rfl⟩
  | netFail =>
    simp only [slideBlock, hcl] at he
    rcases (by simpa using he : e = Ev.netError i) with rfl
    exact ⟨rfl, rfl⟩
  | apiFail r a =>
    simp only [slideBlock, hcl] at he
    rcases (by simpa using he : e = Ev.apiError i) with rfl
    exact ⟨rfl, rfl⟩
  | ok200 r a =>
    simp only [slideBlock, hcl] at he
    rcases List.mem_cons.mp he with rfl | he
    · exact ⟨rfl, rfl⟩
    rcases List.mem_cons.mp he with rfl | he
    · exact ⟨rfl, rfl⟩
    by_cases haud : inp.audioOnly = true
    · rw [if_pos haud] at he
      rcases (by simpa using he : e = Ev.audioOnlyDone i) with rfl
      exact ⟨rfl, rfl⟩
    · rw [if_neg haud] at he
      cases hls : lookupSnap snaps i with
      | some s =>
        rw [hls] at he
        simp only [postConvertEvents] at he
        by_cases hskip : (should_skip_audio_attachment s).1 = true
        · rw [if_pos hskip] at he
          rcases (by simpa using he : e = Ev.skipUnsafe i) with rfl
          exact ⟨rfl, rfl⟩
        · rw [if_neg hskip] at he
          exact mem_attachEvents_facts i _ true e he
      | none =>
        rw [hls] at he
        simp only [postConvertEvents] at he
        exact mem_attachEvents_facts i _ false e he

theorem mem_snapBlocks_isSnap (inp : RunInput) :
    ∀ (l : List Nat) (c : Nat), ∀ e ∈ snapBlocks inp c l, e.isSnapEv = true := by
  intro l
  induction l with
  | nil => intro c e he; exact absurd he (List.not_mem_nil e)
  | cons i rest ih =>
    intro c e he
    simp only [snapBlocks] at he
    split at he
    · exact absurd he (List.not_mem_nil e)
    · rcases List.mem_append.mp he with he | he
      · split at he
        · rcases (by simpa using he : e = Ev.snapFailed i) with rfl; rfl
        · rcases (by simpa using he : e = Ev.snapCaptured i) with rfl; rfl
      · exact ih (c + 1) e he

theorem mem_mainBlocks_idx (inp : RunInput)
    (snaps : List (Nat × Option AnimationSnapshot)) :
    ∀ (l : List Nat) (c : Nat), ∀ e ∈ mainBlocks inp snaps c l,
      ∃ i ∈ l, e.idx? = some i ∧ e.isSnapEv = false := by
  intro l
  induction l with
  | nil => intro c e he; exact absurd he (List.not_mem_nil e)
  | cons i rest ih =>
    intro c e he
    simp only [mainBlocks] at he
    split at he
    · exact absurd he (List.not_mem_nil e)
    · rcases List.mem_append.mp he with he | he
      · exact ⟨i, List.mem_cons_self i rest, mem_slideBlock_facts inp snaps i e he⟩
      · obtain ⟨j, hj, hfacts⟩ := ih (c + 1) e he
        exact ⟨j, List.mem_cons_of_mem i hj, hfacts⟩

/-! Save-adjacency structure of the trace. -/

theorem pairOk_of_notSave (e₁ e₂ : Ev) (h : isSaveSlideEv e₂ = false) :
    pairOk e₁ e₂ = true := by
  cases e₂ <;> first | rfl | exact absurd h (by simp [isSaveSlideEv])

theorem headNotSave_of_cons (b : Ev) (bs : List Ev)
    (h : headNotSave (b :: bs) = true) : isSaveSlideEv b = false := by
  cases b <;> simp_all [headNotSave, isSaveSlideEv]

theorem goodSaveStruct_of_noSave (l : List Ev)
    (h : ∀ e ∈ l, isSaveSlideEv e = false) : goodSaveStruct l := by
  constructor
  · induction l with
    | nil => exact List.chain'_nil
    | cons a rest ih =>
      rw [List.chain'_cons']
      refine ⟨?_, ih fun e he => h e (List.mem_cons_of_mem a he)⟩
      intro y hy
      exact pairOk_of_notSave a y
        (h y (List.mem_cons_of_mem a (List.mem_of_mem_head? hy)))
  · cases l with
    | nil => rfl
    | cons a rest =>
      have ha := h a (List.mem_cons_self a rest)
      cases a <;> first | rfl | exact absurd ha (by simp [isSaveSlideEv])

theorem goodSaveStruct_append (A B : List Ev)
    (hA : goodSaveStruct A) (hB : goodSaveStruct B) :
    goodSaveStruct (A ++ B) := by
  constructor
  · rw [List.chain'_append]
    refine ⟨hA.1, hB.1, ?_⟩
    intro x _ y hy
    cases B with
    | nil => simp at hy
    | cons b bs =>
      have hyb : b = y := by simpa using hy
      subst hyb
      exact pairOk_of_notSave x b (headNotSave_of_cons b bs hB.2)
  · cases A with
    | nil => simpa using hB.2
    | cons a as => exact hA.2

theorem attachEvents_good (i : Nat) (sl : SlideIn) (b : Bool) :
    goodSaveStruct (attachEvents i sl b) := by
  unfold attachEvents
  split
  · exact goodSaveStruct_of_noSave _ (by
      intro e he
      rcases (by simpa using he :
        e = Ev.clearTimeline i ∨ e = Ev.insertError i) with rfl | rfl <;> rfl)
  · split
    · exact ⟨by simp [List.chain'_cons, List.chain'_singleton, pairOk], rfl⟩
    · exact ⟨by simp [List.chain'_cons, List.chain'_singleton, pairOk], rfl⟩

theorem slideBlock_good (inp : RunInput)
    (snaps : List (Nat × Option AnimationSnapshot)) (i : Nat) :
    goodSaveStruct (slideBlock inp snaps i) := by
  cases hcl : classifySlide (slideData inp i) with
  | noNotes =>
    simp only [slideBlock, hcl]
    exact goodSaveStruct_of_noSave _ (by
      intro e he
      rcases (by simpa using he : e = Ev.skipNoNotes i) with rfl; rfl)
  | netFail =>
    simp only [slideBlock, hcl]
    exact goodSaveStruct_of_noSave _ (by
      intro e he
      rcases (by simpa using he : e = Ev.netError i) with rfl; rfl)
  | apiFail r a =>
    simp only [slideBlock, hcl]
    exact goodSaveStruct_of_noSave _ (by
      intro e he
      rcases (by simpa using he : e = Ev.apiError i) with rfl; rfl)
  | ok200 r a =>
    simp only [slideBlock, hcl]
    have h2 : goodSaveStruct
        [Ev.manifestAppend i, Ev.transcode i (slideData inp i).ffmpegExit] :=
      goodSaveStruct_of_noSave _ (by
        intro e he
        rcases (by simpa using he :
          e = Ev.manifestAppend i ∨ e = Ev.transcode i (slideData inp i).ffmpegExit) with
          rfl | rfl <;> rfl)
    have happ : ∀ tail : List Ev, goodSaveStruct tail →
        goodSaveStruct (Ev.manifestAppend i ::
          Ev.transcode i (slideData inp i).ffmpegExit :: tail) := by
      intro tail htail
      exact goodSaveStruct_append
        [Ev.manifestAppend i, Ev.transcode i (slideData inp i).ffmpegExit] tail h2 htail
    apply happ
    by_cases haud : inp.audioOnly = true
    · rw [if_pos haud]
      exact goodSaveStruct_of_noSave _ (by
        intro e he
        rcases (by simpa using he : e = Ev.audioOnlyDone i) with rfl; rfl)
    · rw [if_neg haud]
      cases hls : lookupSnap snaps i with
      | some s =>
        simp only [postConvertEvents]
        by_cases hskip : (should_skip_audio_attachment s).1 = true
        · rw [if_pos hskip]
          exact goodSaveStruct_of_noSave _ (by
            intro e he
            rcases (by simpa using he : e = Ev.skipUnsafe i) with rfl; rfl)
        · rw [if_neg hskip]
          exact attachEvents_good i _ true
      | none =>
        simp only [postConvertEvents]
        exact attachEvents_good i _ false

theorem mainBlocks_good (inp : RunInput)
    (snaps : List (Nat × Option AnimationSnapshot)) :
    ∀ (l : List Nat) (c : Nat), goodSaveStruct (mainBlocks inp snaps c l) := by
  intro l
  induction l with
  | nil => intro c; exact goodSaveStruct_of_noSave [] (by intro e he; cases he)
  | cons i rest ih =>
    intro c
    simp only [mainBlocks]
    split
    · exact goodSaveStruct_of_noSave [] (by intro e he; cases he)
    · exact goodSaveStruct_append _ _ (slideBlock_good inp snaps i) (ih (c + 1))

theorem runWorker_good (inp : RunInput) : goodSaveStruct (runWorker inp).trace := by
  by_cases hsel : select_slides inp.total inp.spec = []
  · rw [runWorker_empty inp hsel]
    exact goodSaveStruct_of_noSave [] (by intro e he; cases he)
  · by_cases haud : inp.audioOnly
    · rw [(runWorker_audio inp haud hsel).1]
      exact mainBlocks_good inp [] _ 0
    · rw [(runWorker_doc inp (by simpa using haud) hsel).1]
      refine goodSaveStruct_append _ _ ?_ (goodSaveStruct_append _ _ ?_ ?_)
      · exact goodSaveStruct_of_noSave _ (by
          intro e he
          have hs := mem_snapBlocks_isSnap inp _ 0 e he
          cases e <;> first | rfl | exact absurd hs (by simp [Ev.isSnapEv]))
      · exact mainBlocks_good inp _ _ _
      · exact goodSaveStruct_of_noSave _ (by
          intro e he
          rcases (by simpa using he : e = Ev.saveFinal) with rfl; rfl)

theorem pairOk_save_inv (e : Ev) (i : Nat) (h : pairOk e (Ev.saveSlide i) = true) :
    (∃ ok, e = Ev.restoreCall i ok) ∨ e = Ev.basicSetup i := by
  cases e <;> simp [pairOk] at h
  case restoreCall j ok =>
    subst h
    exact Or.inl ⟨ok, rfl⟩
  case basicSetup j =>
    subst h
    exact Or.inr rfl

/-- At a per-slide save event the saved slide's own timeline has been
through a restore call or the basic fallback. -/
theorem tlTag_at_save (tr : List Ev) (hg : goodSaveStruct tr) (k i : Nat)
    (hk : tr.getD k default = Ev.saveSlide i) :
    tlTagAt (tr.take k) i = TlTag.restored ∨
    tlTagAt (tr.take k) i = TlTag.restoreFailed ∨
    tlTagAt (tr.take k) i = TlTag.basic := by
  have hlen : k < tr.length := by
    by_contra hcon
    rw [getD_default_of_le tr k (by omega)] at hk
    exact Ev.noConfusion hk
  have hk1 : 1 ≤ k := by
    by_contra hcon
    have hk0 : k = 0 := by omega
    subst hk0
    cases tr with
    | nil => simp at hlen
    | cons e es =>
      have he : e = Ev.saveSlide i := by simpa using hk
      have hh := hg.2
      rw [he] at hh
      simp [headNotSave] at hh
  have hk' : k - 1 < tr.length := by omega
  have hchain := List.chain'_iff_get.mp hg.1 (k - 1) (by omega)
  have hx : tr.getD (k - 1 + 1) default = tr.get ⟨k - 1 + 1, by omega⟩ := by
    rw [List.get_eq_getElem, getD_of_lt tr (k - 1 + 1) (by omega)]
  have hpre : tr.get ⟨k - 1, by omega⟩ = tr.getD (k - 1) default := by
    rw [List.get_eq_getElem, getD_of_lt tr (k - 1) hk']
  rw [hpre, ← hx, show k - 1 + 1 = k from by omega, hk] at hchain
  have htake : tr.take k = tr.take (k - 1) ++ [tr.getD (k - 1) default] := by
    conv_lhs => rw [show k = (k - 1) + 1 from by omega]
    rw [List.take_succ, List.getElem?_eq_getElem hk', getD_of_lt tr (k - 1) hk']
    rfl
  rw [htake]
  unfold tlTagAt
  rw [List.foldl_append]
  rcases pairOk_save_inv _ i hchain with ⟨ok, hpe⟩ | hpe <;> rw [hpe]
  · cases ok with
    | false =>
      right; left
      simp [tlStepEv]
    | true =>
      left
      simp [tlStepEv]
  · right; right
    simp [tlStepEv]

theorem isSnapEv_not_mutation (e : Ev) (h : e.isSnapEv = true) :
    e.isMutation = false := by
  cases e <;> first | rfl | exact absurd h (by simp [Ev.isSnapEv])

/-- C1 (counterexample): in the run `c1run` — one selected slide whose
animation backup raises and whose audio insert raises after the timeline
clear — the slide's timeline is left in the cleared intermediate state
with no snapshot backup, and the run-end save happens with the slide in
that state; both halves of the claimed invariant fail. -/
theorem C1_cleared_state_counterexample :
    ¬ claimC1 c1run ∧ clearedBackedUpB c1run = false ∧
      savesOnlyCompleteB c1run = false :=
  ⟨fun h => absurd h.1 (by decide), by decide, by decide⟩

/-- C1 (amended): what the code guarantees is weaker than the claim — the
per-slide save of line 1256 is executed only after the slide's own
clear-insert and restore call (or basic fallback), so at that save the
saved slide's timeline is never in the cleared or untouched state; and
the run-end save of the `finally` block always runs for document-mutating
runs — even when a slide failed after its clear, in which case the cleared
state is persisted (and, when the backup also failed, no snapshot of the
original timeline exists). -/
theorem C1_per_slide_save_discipline :
    (∀ (inp : RunInput) (k i : Nat),
       (runWorker inp).trace.getD k default = Ev.saveSlide i →
       tlTagAt ((runWorker inp).trace.take k) i ≠ TlTag.cleared ∧
       tlTagAt ((runWorker inp).trace.take k) i ≠ TlTag.original) ∧
    (∀ inp : RunInput, inp.audioOnly = false →
       select_slides inp.total inp.spec ≠ [] →
       Ev.saveFinal ∈ (runWorker inp).trace) := by
  constructor
  · intro inp k i hk
    rcases tlTag_at_save (runWorker inp).trace (runWorker_good inp) k i hk with
      h | h | h <;> rw [h] <;> exact ⟨by decide, by decide⟩
  · intro inp haud hsel
    rw [(runWorker_doc inp haud hsel).1]
    simp

/-- C1 (witness): the save discipline at the successful one-slide run
(whose trace saves slide 1 at position 6), and the run-end save event. -/
theorem C1_save_discipline_witness :
    tlTagAt ((runWorker (mkRun [okSlide])).trace.take 6) 1 ≠ TlTag.cleared ∧
    Ev.saveFinal ∈ (runWorker (mkRun [okSlide])).trace := by
  exact ⟨(C1_per_slide_save_discipline.1 (mkRun [okSlide]) 6 1 (by decide)).1,
    C1_per_slide_save_discipline.2 (mkRun [okSlide]) (by decide) (by decide)⟩

/-- C8: in every document-mutating run, every snapshot-capture event in
the trace precedes every timeline-mutation event: the batch backup of all
selected slides completes before any slide's timeline is touched. -/
theorem C8_snapshots_before_mutation :
    ∀ (inp : RunInput), inp.audioOnly = false →
    ∀ k₁ k₂ : Nat,
      Ev.isMutation ((runWorker inp).trace.getD k₁ default) = true →
      Ev.isSnapEv ((runWorker inp).trace.getD k₂ default) = true →
      k₂ < k₁ := by
  intro inp haud k₁ k₂ hmut hsnap
  by_cases hsel : select_slides inp.total inp.spec = []
  · rw [runWorker_empty inp hsel] at hmut
    rw [List.getD_nil] at hmut
    exact absurd hmut (by decide)
  · obtain ⟨htr, _⟩ := runWorker_doc inp haud hsel
    rw [htr] at hmut hsnap
    have hk2 : k₂ < (snapBlocks inp 0 (select_slides inp.total inp.spec)).length := by
      by_contra hcon
      push_neg at hcon
      by_cases hlen : k₂ <
          (snapBlocks inp 0 (select_slides inp.total inp.spec) ++
            (mainBlocks inp (snapPairs inp 0 (select_slides inp.total inp.spec))
              (snapPhase inp (select_slides inp.total inp.spec) initState).checks
              (select_slides inp.total inp.spec) ++ [Ev.saveFinal])).length
      · rw [List.getD_append_right _ _ _ _ hcon] at hsnap
        have hmem : (mainBlocks inp (snapPairs inp 0 (select_slides inp.total inp.spec))
              (snapPhase inp (select_slides inp.total inp.spec) initState).checks
              (select_slides inp.total inp.spec) ++ [Ev.saveFinal]).getD
              (k₂ - (snapBlocks inp 0 (select_slides inp.total inp.spec)).length)
              default ∈ _ := getD_mem _ _ (by
          rw [List.length_append] at hlen
          omega)
        rcases List.mem_append.mp hmem with hmem | hmem
        · obtain ⟨j, _, _, hf⟩ := mem_mainBlocks_idx inp _ _ _ _ hmem
          rw [hsnap] at hf
          exact Bool.noConfusion hf
        · have hev : (mainBlocks inp (snapPairs inp 0 (select_slides inp.total inp.spec))
              (snapPhase inp (select_slides inp.total inp.spec) initState).checks
              (select_slides inp.total inp.spec) ++ [Ev.saveFinal]).getD
              (k₂ - (snapBlocks inp 0 (select_slides inp.total inp.spec)).length)
              default = Ev.saveFinal := by simpa using hmem
          rw [hev] at hsnap
          exact absurd hsnap (by decide)
      · push_neg at hlen
        rw [getD_default_of_le _ _ hlen] at hsnap
        exact absurd hsnap (by decide)
    have hk1 : (snapBlocks inp 0 (select_slides inp.total inp.spec)).length ≤ k₁ := by
      by_contra hcon
      push_neg at hcon
      rw [List.getD_append _ _ _ _ hcon] at hmut
      have hmem := getD_mem (snapBlocks inp 0 (select_slides inp.total inp.spec)) k₁ hcon
      have hsnapA := mem_snapBlocks_isSnap inp _ 0 _ hmem
      rw [isSnapEv_not_mutation _ hsnapA] at hmut
      exact Bool.noConfusion hmut
    omega

/-- C8 (witness): in the successful one-slide run the clear at position 3
comes after the snapshot capture at position 0. -/
theorem C8_snapshot_witness : (0 : Nat) < 3 :=
  C8_snapshots_before_mutation (mkRun [okSlide]) (by decide) 3 0
    (by decide) (by decide)

/-- C2 (counterexample): the final report does not carry the processed
count (nor any skipped/failure count — the code maintains no such
counters): the one-slide and two-slide skip-only runs produce the same
completion report with different processed counts. -/
theorem C2_summary_counterexample :
    ¬ summaryCarriesProcessed ∧
    (runWorker (mkRun [emptySlide])).report =
      (runWorker (mkRun [emptySlide, emptySlide])).report ∧
    (runWorker (mkRun [emptySlide])).processed = 1 ∧
    (runWorker (mkRun [emptySlide, emptySlide])).processed = 2 := by
  refine ⟨fun h => ?_, by decide, by decide, by decide⟩
  have h12 := h (mkRun [emptySlide]) (mkRun [emptySlide, emptySlide]) (by decide)
  have h1 : (runWorker (mkRun [emptySlide])).processed = 1 := by decide
  have h2 : (runWorker (mkRun [emptySlide, emptySlide])).processed = 2 := by decide
  rw [h1, h2] at h12
  exact absurd h12 (by decide)

/-- C2 (amended): on every run that selects at least one slide a final
message is always reported — the cancellation notice when the cancel flag
is set at the end, else the completion notice of the mode — but the
message is only one of these fixed variants and carries no processed,
skipped or failure count. -/
theorem C2_final_report_amended :
    ∀ inp : RunInput, select_slides inp.total inp.spec ≠ [] →
      (runWorker inp).report =
        reportMsg inp.audioOnly (isSet inp.cancelFrom (runWorker inp).checks) ∧
      (inp.cancelFrom = none →
        (runWorker inp).report =
          if inp.audioOnly then Report.completeAudioOnly else Report.complete) ∧
      (inp.cancelFrom = some 0 → (runWorker inp).report = Report.cancelled) := by
  intro inp hsel
  have h1 : (runWorker inp).report =
      reportMsg inp.audioOnly (isSet inp.cancelFrom (runWorker inp).checks) := by
    simp only [runWorker]
    rw [if_neg hsel]
  refine ⟨h1, ?_, ?_⟩
  · intro hc
    rw [h1, hc]
    rfl
  · intro hc
    rw [h1, hc]
    simp [isSet, reportMsg]

/-- C2 (witness): the completion report of the successful one-slide run
and the cancellation report of the immediately-cancelled run. -/
theorem C2_report_witness :
    (runWorker (mkRun [okSlide])).report = Report.complete ∧
    (runWorker { mkRun [okSlide] with cancelFrom := some 0 }).report =
      Report.cancelled := by
  constructor
  · have h := (C2_final_report_amended (mkRun [okSlide]) (by decide)).2.1 rfl
    simpa using h
  · exact (C2_final_report_amended { mkRun [okSlide] with cancelFrom := some 0 }
      (by decide)).2.2 rfl

/-- C3 (counterexample): in the run `c3run` the transcoder exits with
status 1, yet the slide is not failed — it is attached and saved; the
exit status of `run_ffmpeg_quiet` (`subprocess.run` without `check`) is
discarded at line 1157. -/
theorem C3_nonzero_exit_counterexample :
    ¬ claimC3 ∧ Ev.transcode 1 1 ∈ (runWorker c3run).trace ∧
    Ev.saveSlide 1 ∈ (runWorker c3run).trace ∧
    slideFailedEv (runWorker c3run).trace 1 = false := by
  refine ⟨fun h => ?_, by decide, by decide, by decide⟩
  have hf := h c3run 1 1 (by decide) (by omega)
  have hf' : slideFailedEv (runWorker c3run).trace 1 = false := by decide
  rw [hf] at hf'
  exact Bool.noConfusion hf'

/-- C3 (amended): the transcoder's exit status is ignored: two slides that
differ only in the transcoder exit status produce the same per-slide
outcome — the same events (up to the recorded exit value), processed
count, manifest, checksum and snapshots. -/
theorem C3_exit_ignored_amended :
    ∀ (inp inp' : RunInput) (i : Nat) (st : RunState),
      inp.voiceId = inp'.voiceId → inp.audioOnly = inp'.audioOnly →
      clearExit (slideData inp i) = clearExit (slideData inp' i) →
      (slideStep inp i st).trace.map eraseExit =
        (slideStep inp' i st).trace.map eraseExit ∧
      (slideStep inp i st).processed = (slideStep inp' i st).processed ∧
      (slideStep inp i st).manifest = (slideStep inp' i st).manifest ∧
      (slideStep inp i st).checksum = (slideStep inp' i st).checksum ∧
      (slideStep inp i st).snapshots = (slideStep inp' i st).snapshots := by
  intro inp inp' i st hv ha hce
  have htoks : (slideData inp i).toks = (slideData inp' i).toks := by
    have h := congrArg SlideIn.toks hce
    exact h
  have hshapes : (slideData inp i).shapes = (slideData inp' i).shapes := by
    have h := congrArg SlideIn.shapes hce
    exact h
  have hatt : (slideData inp i).attempts = (slideData inp' i).attempts := by
    have h := congrArg SlideIn.attempts hce
    exact h
  have hir : (slideData inp i).insertRaises = (slideData inp' i).insertRaises := by
    have h := congrArg SlideIn.insertRaises hce
    exact h
  have hro : (slideData inp i).restoreOk = (slideData inp' i).restoreOk := by
    have h := congrArg SlideIn.restoreOk hce
    exact h
  have hcl : classifySlide (slideData inp i) = classifySlide (slideData inp' i) := by
    unfold classifySlide
    rw [htoks, hshapes, hatt]
  have hen : slideEntry inp i = slideEntry inp' i := by
    simp only [slideEntry]
    rw [hcl, htoks, hshapes, hv]
  have hbl : (slideBlock inp st.snapshots i).map eraseExit =
      (slideBlock inp' st.snapshots i).map eraseExit := by
    cases hc2 : classifySlide (slideData inp' i) with
    | noNotes =>
      have hc1 : classifySlide (slideData inp i) = .noNotes := by rw [hcl, hc2]
      simp only [slideBlock, hc1, hc2]
    | netFail =>
      have hc1 : classifySlide (slideData inp i) = .netFail := by rw [hcl, hc2]
      simp only [slideBlock, hc1, hc2]
    | apiFail r a =>
      have hc1 : classifySlide (slideData inp i) = .apiFail r a := by rw [hcl, hc2]
      simp only [slideBlock, hc1, hc2]
    | ok200 r a =>
      have hc1 : classifySlide (slideData inp i) = .ok200 r a := by rw [hcl, hc2]
      simp only [slideBlock, hc1, hc2]
      have hpost : postConvertEvents (slideData inp i) i (lookupSnap st.snapshots i) =
          postConvertEvents (slideData inp' i) i (lookupSnap st.snapshots i) := by
        cases lookupSnap st.snapshots i with
        | some s =>
          simp only [postConvertEvents]
          unfold attachEvents
          rw [hir, hro]
        | none =>
          simp only [postConvertEvents]
          unfold attachEvents
          rw [hir, hro]
      rw [ha, hpost]
      simp [eraseExit]
  refine ⟨?_, rfl, ?_, ?_, rfl⟩
  · rw [slideStep_trace, slideStep_trace, List.map_append, List.map_append, hbl]
  · rw [slideStep_manifest, slideStep_manifest, hen]
  · have hc : ∀ (j : RunInput), (slideStep j i st).checksum =
        (if (slideEntry j i).isSome then some (st.manifest ++ (slideEntry j i).toList)
         else st.checksum) := fun _ => rfl
    rw [hc inp, hc inp', hen]

/-- C3 (witness): the exit-1 run and the exit-0 run of the same slide give
identical per-slide results up to the recorded exit value. -/
theorem C3_exit_witness :
    (slideStep c3run 1 initState).trace.map eraseExit =
      (slideStep (mkRun [okSlide]) 1 initState).trace.map eraseExit ∧
    (slideStep c3run 1 initState).manifest =
      (slideStep (mkRun [okSlide]) 1 initState).manifest := by
  have h := C3_exit_ignored_amended c3run (mkRun [okSlide]) 1 initState
    (by decide) (by decide) (by decide)
  exact ⟨h.1, h.2.2.1⟩

theorem slideEntry_slide (inp : RunInput) (i : Nat) (e : MEntry)
    (h : slideEntry inp i = some e) : e.slide = i := by
  simp only [slideEntry] at h
  cases hcl : classifySlide (slideData inp i) with
  | noNotes => rw [hcl] at h; exact Option.noConfusion h
  | netFail => rw [hcl] at h; exact Option.noConfusion h
  | apiFail r a => rw [hcl] at h; exact Option.noConfusion h
  | ok200 r a =>
    rw [hcl] at h
    injection h with h'
    rw [← h']

theorem mainEntries_slides_sublist (inp : RunInput) :
    ∀ (l : List Nat) (c : Nat),
      ((mainEntries inp c l).map (·.slide)).Sublist l := by
  intro l
  induction l with
  | nil => intro c; simp [mainEntries]
  | cons i rest ih =>
    intro c
    simp only [mainEntries]
    split
    · exact List.nil_sublist _
    · cases hE : slideEntry inp i with
      | none =>
        simp only [Option.toList, List.nil_append]
        exact (ih (c + 1)).cons i
      | some e =>
        have hs := slideEntry_slide inp i e hE
        simp only [Option.toList, List.singleton_append, List.map_cons, hs]
        exact (ih (c + 1)).cons₂ i

/-- C5 (counterexample): a run whose only slide fails with a 400 response
counts the slide as processed but appends no manifest record, so the
manifest does not hold one record per processed slide. -/
theorem C5_per_processed_counterexample :
    ¬ claimC5 ∧ (runWorker apiFailRun).processed = 1 ∧
      (runWorker apiFailRun).manifest = [] := by
  refine ⟨fun h => ?_, by decide, by decide⟩
  have hm := h apiFailRun
  have h1 : (runWorker apiFailRun).manifest.length = 0 := by decide
  have h2 : (runWorker apiFailRun).processed = 1 := by decide
  rw [h1, h2] at hm
  exact absurd hm (by decide)

/-- C5 (amended): the recorder appends exactly one record per slide whose
synthesis returned HTTP 200, in processing (ascending) order.  The append
of lines 1136-1155 precedes the transcode, the unsafe-animation skip
check and the attach, so a 200 slide later skipped for unsafe animations
or failing at the audio insert still has its record; slides skipped for
empty notes (never synthesized) and slides failing with a 4xx response or
a network error are counted as processed but receive no record.  After
every append the checksum stamp is rewritten to the digest of the
manifest's current content, so whenever the manifest is nonempty its
checksum file matches it; and manifests of runs on the same deck with
different timestamps live at different paths, so no prior run's manifest
is overwritten. -/
theorem C5_manifest_amended :
    (∀ (inp : RunInput) (i : Nat) (st : RunState), (slideEntry inp i).isSome = true →
       (slideStep inp i st).checksum = some (slideStep inp i st).manifest) ∧
    (∀ inp : RunInput, (runWorker inp).manifest ≠ [] →
       (runWorker inp).checksum = some (runWorker inp).manifest) ∧
    (∀ inp : RunInput, inp.cancelFrom = none →
       (runWorker inp).manifest =
         (select_slides inp.total inp.spec).filterMap (slideEntry inp)) ∧
    (∀ inp : RunInput,
       List.Sorted (· < ·) ((runWorker inp).manifest.map (·.slide))) ∧
    (∀ d t t' : String, t ≠ t' → manifestPath d t ≠ manifestPath d t') ∧
    (∀ (inp : RunInput) (i : Nat),
       (slideEntry inp i).isSome = true ↔
         ∃ r a, classifySlide (slideData inp i) = SlideCase.ok200 r a) ∧
    (∀ (inp : RunInput) (snaps : List (Nat × Option AnimationSnapshot)) (i : Nat),
       Ev.skipUnsafe i ∈ slideBlock inp snaps i ∨
         Ev.insertError i ∈ slideBlock inp snaps i →
       Ev.manifestAppend i ∈ slideBlock inp snaps i ∧
         (slideEntry inp i).isSome = true) := by
  refine ⟨?_, ?_, ?_, ?_, ?_, ?_, ?_⟩
  · intro inp i st hE
    have hchk : (slideStep inp i st).checksum =
        (if (slideEntry inp i).isSome then some (st.manifest ++ (slideEntry inp i).toList)
         else st.checksum) := rfl
    rw [hchk, if_pos hE, slideStep_manifest]
  · intro inp hne
    rcases runWorker_chkInv inp with ⟨hm, _⟩ | hc
    · exact absurd hm hne
    · exact hc
  · intro inp hcf
    obtain ⟨c, hc⟩ := runWorker_manifest inp
    rw [hc, mainEntries_nocancel inp hcf c]
  · intro inp
    obtain ⟨c, hc⟩ := runWorker_manifest inp
    rw [hc]
    exact List.Pairwise.sublist
      (mainEntries_slides_sublist inp (select_slides inp.total inp.spec) c)
      (select_slides_sorted_lt inp.total inp.spec)
  · intro d t t' hne heq
    apply hne
    have hdata : (manifestPath d t).data = (manifestPath d t').data :=
      congrArg String.data heq
    unfold manifestPath at hdata
    simp only [String.data_append] at hdata
    have h1 := List.append_cancel_left (List.append_cancel_right hdata)
    have h2 : String.mk t.data = String.mk t'.data := by rw [h1]
    exact h2
  · intro inp i
    constructor
    · intro h
      cases hc : classifySlide (slideData inp i) with
      | ok200 r a => exact ⟨r, a, rfl⟩
      | noNotes =>
        have he : slideEntry inp i = none := by simp only [slideEntry, hc]
        rw [he] at h
        exact absurd h (by simp)
      | netFail =>
        have he : slideEntry inp i = none := by simp only [slideEntry, hc]
        rw [he] at h
        exact absurd h (by simp)
      | apiFail r a =>
        have he : slideEntry inp i = none := by simp only [slideEntry, hc]
        rw [he] at h
        exact absurd h (by simp)
    · rintro ⟨r, a, hc⟩
      simp only [slideEntry, hc, Option.isSome_some]
  · intro inp snaps i h
    cases hc : classifySlide (slideData inp i) with
    | noNotes =>
      exfalso
      have hb : slideBlock inp snaps i = [Ev.skipNoNotes i] := by
        simp only [slideBlock, hc]
      rw [hb] at h
      rcases h with h | h <;> simp at h
    | netFail =>
      exfalso
      have hb : slideBlock inp snaps i = [Ev.netError i] := by
        simp only [slideBlock, hc]
      rw [hb] at h
      rcases h with h | h <;> simp at h
    | apiFail r a =>
      exfalso
      have hb : slideBlock inp snaps i = [Ev.apiError i] := by
        simp only [slideBlock, hc]
      rw [hb] at h
      rcases h with h | h <;> simp at h
    | ok200 r a =>
      refine ⟨?_, by simp only [slideEntry, hc, Option.isSome_some]⟩
      simp only [slideBlock, hc]
      exact List.mem_cons_self _ _

/-- C5 (witness): the amended behaviour at the successful one-slide run
and at concrete manifest paths. -/
theorem C5_manifest_witness :
    (slideStep (mkRun [okSlide]) 1 initState).checksum =
      some (slideStep (mkRun [okSlide]) 1 initState).manifest ∧
    (runWorker (mkRun [okSlide])).checksum =
      some (runWorker (mkRun [okSlide])).manifest ∧
    (runWorker (mkRun [okSlide])).manifest =
      (select_slides 1 "").filterMap (slideEntry (mkRun [okSlide])) ∧
    manifestPath "deck" "t1" ≠ manifestPath "deck" "t2" := by
  refine ⟨C5_manifest_amended.1 (mkRun [okSlide]) 1 initState (by decide),
    C5_manifest_amended.2.1 (mkRun [okSlide]) (by decide), ?_,
    C5_manifest_amended.2.2.2.2.1 "deck" "t1" "t2" (by decide)⟩
  exact C5_manifest_amended.2.2.1 (mkRun [okSlide]) rfl

theorem tlStepEv_noop (i : Nat) (t : TlTag) (e : Ev)
    (h : e.isMutation = false ∨ e.idx? ≠ some i) : tlStepEv i t e = t := by
  cases e with
  | clearTimeline j =>
    rcases h with hm | hi
    · exact absurd hm (by simp [Ev.isMutation])
    · have hji : j ≠ i := fun he => hi (by rw [he]; rfl)
      simp [tlStepEv, hji]
  | restoreCall j ok =>
    rcases h with hm | hi
    · exact absurd hm (by simp [Ev.isMutation])
    · have hji : j ≠ i := fun he => hi (by rw [he]; rfl)
      simp [tlStepEv, hji]
  | basicSetup j =>
    rcases h with hm | hi
    · exact absurd hm (by simp [Ev.isMutation])
    · have hji : j ≠ i := fun he => hi (by rw [he]; rfl)
      simp [tlStepEv, hji]
  | snapCaptured j => rfl
  | snapFailed j => rfl
  | manifestAppend j => rfl
  | transcode j x => rfl
  | insertAudio j => rfl
  | saveSlide j => rfl
  | saveFinal => rfl
  | skipNoNotes j => rfl
  | skipUnsafe j => rfl
  | apiError j => rfl
  | netError j => rfl
  | insertError j => rfl
  | audioOnlyDone j => rfl

theorem tlFold_noop (i : Nat) :
    ∀ (l : List Ev) (t : TlTag),
      (∀ e ∈ l, e.isMutation = false ∨ e.idx? ≠ some i) →
      l.foldl (tlStepEv i) t = t := by
  intro l
  induction l with
  | nil => intro t _; rfl
  | cons e rest ih =>
    intro t h
    rw [List.foldl_cons, tlStepEv_noop i t e (h e (List.mem_cons_self e rest))]
    exact ih t fun e' he' => h e' (List.mem_cons_of_mem e he')

theorem find_snapPairs (inp : RunInput) :
    ∀ (l : List Nat) (i : Nat), i ∈ l → l.Nodup →
      ((l.map (fun j => (j, snapOf inp j))).find? (fun p => p.1 == i)) =
        some (i, snapOf inp i) := by
  intro l
  induction l with
  | nil => intro i h _; cases h
  | cons j rest ih =>
    intro i hmem hnd
    rcases List.mem_cons.mp hmem with rfl | hmem'
    · rw [List.map_cons]
      exact List.find?_cons_of_pos _ (by simp)
    · have hji : j ≠ i := by
        intro he
        subst he
        exact (List.nodup_cons.mp hnd).1 hmem'
      rw [List.map_cons, List.find?_cons_of_neg _ (by simp [hji])]
      exact ih i hmem' (List.nodup_cons.mp hnd).2

/-- C10: when the up-front backup of a slide raised, the snapshot table
records None for it; in an uncancelled document-mutating run whose
synthesis succeeds for that slide and whose insert does not raise, the
unsafe-animation skip check is bypassed, the orchestrator still clears the
timeline, inserts the audio shape and applies only the basic play
settings, the document is saved, the slide is never skipped for unsafe
animations, no restore call happens for it, and the slide's final timeline
state is the basic fallback (its original animations are not restored). -/
theorem C10_backup_failure_fallback :
    ∀ (inp : RunInput) (i : Nat) (r : HttpResp) (a : Nat),
      inp.audioOnly = false → inp.cancelFrom = none →
      i ∈ select_slides inp.total inp.spec →
      (slideData inp i).snapshotRaises = true →
      classifySlide (slideData inp i) = .ok200 r a →
      (slideData inp i).insertRaises = false →
      ((runWorker inp).snapshots.find? (fun p => p.1 == i)) = some (i, none) ∧
      slideBlock inp (runWorker inp).snapshots i =
        [Ev.manifestAppend i, Ev.transcode i (slideData inp i).ffmpegExit,
         Ev.clearTimeline i, Ev.insertAudio i, Ev.basicSetup i, Ev.saveSlide i] ∧
      (∃ A B, (runWorker inp).trace =
        A ++ slideBlock inp (runWorker inp).snapshots i ++ B) ∧
      tlTagAt (runWorker inp).trace i = TlTag.basic ∧
      Ev.skipUnsafe i ∉ (runWorker inp).trace ∧
      (∀ ok, Ev.restoreCall i ok ∉ (runWorker inp).trace) := by
  intro inp i r a haud hcf hmem hsr hcls hins
  have hsel : select_slides inp.total inp.spec ≠ [] := List.ne_nil_of_mem hmem
  obtain ⟨htr, hsnaps⟩ := runWorker_doc inp haud hsel
  have hsnaps' : (runWorker inp).snapshots =
      (select_slides inp.total inp.spec).map (fun j => (j, snapOf inp j)) := by
    rw [hsnaps, snapPairs_nocancel inp hcf]
  have hnone : snapOf inp i = none := by
    unfold snapOf
    rw [hsr]
    rfl
  have hfind : ((runWorker inp).snapshots.find? (fun p => p.1 == i)) =
      some (i, none) := by
    rw [hsnaps', ← hnone]
    exact find_snapPairs inp _ i hmem (select_slides_nodup inp.total inp.spec)
  have hlook : lookupSnap (runWorker inp).snapshots i = none := by
    unfold lookupSnap
    rw [hfind]
  have hblock : slideBlock inp (runWorker inp).snapshots i =
      [Ev.manifestAppend i, Ev.transcode i (slideData inp i).ffmpegExit,
       Ev.clearTimeline i, Ev.insertAudio i, Ev.basicSetup i, Ev.saveSlide i] := by
    simp only [slideBlock, hcls]
    rw [if_neg (by rw [haud]; exact Bool.false_ne_true), hlook]
    simp only [postConvertEvents]
    unfold attachEvents
    rw [if_neg (by rw [hins]; exact Bool.false_ne_true)]
    rfl
  rw [mainBlocks_nocancel inp hcf _ _ _, ← hsnaps] at htr
  obtain ⟨l₁, l₂, hsplit⟩ := List.append_of_mem hmem
  have hnd := select_slides_nodup inp.total inp.spec
  rw [hsplit] at hnd
  have hnotin1 : i ∉ l₁ := by
    intro hi
    rcases List.nodup_append.mp hnd with ⟨_, _, hdisj⟩
    exact hdisj hi (List.mem_cons_self i l₂)
  have hnotin2 : i ∉ l₂ := by
    rcases List.nodup_append.mp hnd with ⟨_, hnd2, _⟩
    exact (List.nodup_cons.mp hnd2).1
  rw [hsplit, List.map_append, List.map_cons, List.flatten_append,
    List.flatten_cons] at htr
  simp only [List.append_assoc] at htr
  have hA1 : ∀ e ∈ snapBlocks inp 0 (l₁ ++ i :: l₂),
      e.isMutation = false ∨ e.idx? ≠ some i :=
    fun e he => Or.inl (isSnapEv_not_mutation e (mem_snapBlocks_isSnap inp _ 0 e he))
  have hflat : ∀ (l' : List Nat), i ∉ l' →
      ∀ e ∈ ((l'.map (slideBlock inp (runWorker inp).snapshots)).flatten),
        e.idx? ≠ some i := by
    intro l' hnot e he
    rw [List.mem_flatten] at he
    obtain ⟨bl, hbl, hebl⟩ := he
    rw [List.mem_map] at hbl
    obtain ⟨j, hj, rfl⟩ := hbl
    rw [(mem_slideBlock_facts inp _ j e hebl).1]
    intro hcon
    injection hcon with hji
    exact hnot (hji ▸ hj)
  refine ⟨hfind, hblock, ?_, ?_, ?_, ?_⟩
  · refine ⟨snapBlocks inp 0 (l₁ ++ i :: l₂) ++
      ((l₁.map (slideBlock inp (runWorker inp).snapshots)).flatten),
      ((l₂.map (slideBlock inp (runWorker inp).snapshots)).flatten) ++
        [Ev.saveFinal], ?_⟩
    rw [htr]
    simp [List.append_assoc]
  · unfold tlTagAt
    rw [htr, List.foldl_append, List.foldl_append, List.foldl_append,
      List.foldl_append]
    rw [tlFold_noop i _ _ hA1,
      tlFold_noop i _ _ (fun e he => Or.inr (hflat l₁ hnotin1 e he))]
    rw [hblock]
    have hbasic : List.foldl (tlStepEv i) TlTag.original
        [Ev.manifestAppend i, Ev.transcode i (slideData inp i).ffmpegExit,
         Ev.clearTimeline i, Ev.insertAudio i, Ev.basicSetup i, Ev.saveSlide i] =
        TlTag.basic := by
      simp [tlStepEv]
    rw [hbasic]
    rw [tlFold_noop i _ _ (fun e he => Or.inr (hflat l₂ hnotin2 e he))]
    rw [tlFold_noop i _ _ (by
      intro e he
      rcases (by simpa using he : e = Ev.saveFinal) with rfl
      exact Or.inl rfl)]
  · intro hm
    rw [htr] at hm
    rcases List.mem_append.mp hm with h1 | hm
    · have := mem_snapBlocks_isSnap inp _ 0 _ h1
      exact Bool.noConfusion this
    rcases List.mem_append.mp hm with h2 | hm
    · exact hflat l₁ hnotin1 _ h2 rfl
    rcases List.mem_append.mp hm with h3 | hm
    · rw [hblock] at h3
      simp at h3
    rcases List.mem_append.mp hm with h4 | hm
    · exact hflat l₂ hnotin2 _ h4 rfl
    · simp at hm
  · intro ok hm
    rw [htr] at hm
    rcases List.mem_append.mp hm with h1 | hm
    · have := mem_snapBlocks_isSnap inp _ 0 _ h1
      exact Bool.noConfusion this
    rcases List.mem_append.mp hm with h2 | hm
    · exact hflat l₁ hnotin1 _ h2 rfl
    rcases List.mem_append.mp hm with h3 | hm
    · rw [hblock] at h3
      simp at h3
    rcases List.mem_append.mp hm with h4 | hm
    · exact hflat l₂ hnotin2 _ h4 rfl
    · simp at hm

/-- C10 (witness): the fallback at the concrete one-slide run whose
backup raises. -/
theorem C10_backup_witness :
    ((runWorker c10run).snapshots.find? (fun p => p.1 == 1)) = some (1, none) ∧
    tlTagAt (runWorker c10run).trace 1 = TlTag.basic := by
  have h := C10_backup_failure_fallback c10run 1 ⟨200, [7]⟩ 1 (by decide) rfl
    (by decide) (by decide) rfl (by decide)
  exact ⟨h.1, h.2.2.2.1⟩

/-- C4 (witness): three attempts on repeated 500s with the second attempt
retried, immediate return of a first-attempt 400, and the per-slide API
failure outcome on the 400 run. -/
theorem C4_retry_witness :
    retryable (attemptOutcome l500 2) = true ∧
    ttsPost l400 = .gotResp ⟨400, []⟩ 1 [] ∧
    slideStep apiFailRun 1 initState =
      { initState with trace := initState.trace ++ [.apiError 1],
                       processed := initState.processed + 1 } := by
  refine ⟨(C4_retry_policy.1 l500).2.2 2 (by omega) (by decide),
    C4_retry_policy.2.2.1 l400 ⟨400, []⟩ (by decide) (by decide) (by decide),
    C4_retry_policy.2.2.2 apiFailRun 1 initState ⟨400, []⟩ 1 [] (by decide)
      (by decide) (by decide)⟩

end Voxsmith
